import Mathlib

set_option maxRecDepth 4000

/-!
Verification of the async-opcua core against its specification.

Code is embedded shallowly: Rust `u32`/`usize` arithmetic is modelled on `Nat`
with explicit wrap-around (`% 2^32`, `% 2^64`) where the source can overflow,
`Duration` is modelled in nanoseconds, fallible functions return `Except`
or an explicit result type with a `panicked` constructor where the source
can panic (slice-index or subtraction overflow).
-/

namespace OpcUa

/-! ## Definitions: sequence numbers
    Embedded from async-opcua-core/src/comms/sequence_number.rs. -/

def U32_MAX : Nat := 4294967295

structure SequenceNumberHandle where
  is_legacy : Bool
  current_value : Nat
deriving Repr, DecidableEq

/-- `SequenceNumberHandle::max_value`. -/
def SequenceNumberHandle.max_value (h : SequenceNumberHandle) : Nat :=
  if h.is_legacy then U32_MAX - 1024 else U32_MAX

/-- `SequenceNumberHandle::min_value`. -/
def SequenceNumberHandle.min_value (h : SequenceNumberHandle) : Nat :=
  if h.is_legacy then 1 else 0

/-- `SequenceNumberHandle::new`. -/
def SequenceNumberHandle.new (is_legacy : Bool) : SequenceNumberHandle :=
  { is_legacy := is_legacy, current_value := if is_legacy then 1 else 0 }

/-- `SequenceNumberHandle::new_at`: `current_value = value % max_value`. -/
def SequenceNumberHandle.new_at (is_legacy : Bool) (value : Nat) : SequenceNumberHandle :=
  let max_value := if is_legacy then U32_MAX - 1024 else U32_MAX
  { is_legacy := is_legacy, current_value := value % max_value }

/-- `SequenceNumberHandle::current`. -/
def SequenceNumberHandle.current (h : SequenceNumberHandle) : Nat :=
  h.current_value

/-- `SequenceNumberHandle::set`. -/
def SequenceNumberHandle.set (h : SequenceNumberHandle) (value : Nat) : SequenceNumberHandle :=
  { h with current_value := value }

/-- `SequenceNumberHandle::set_is_legacy`. The wrap expression
`min_value + (current - max_value - 1)` is `u32` arithmetic in the source; it is
exact on `Nat` in the branch where it runs (`current > max_value`) as long as
`current ≤ u32::MAX`, which every reachable state satisfies. -/
def SequenceNumberHandle.set_is_legacy (h : SequenceNumberHandle) (b : Bool) :
    SequenceNumberHandle :=
  let h' : SequenceNumberHandle := { h with is_legacy := b }
  if h'.max_value < h'.current_value then
    { h' with current_value := h'.min_value + (h'.current_value - h'.max_value - 1) }
  else
    h'

/-- `SequenceNumberHandle::increment`. `remaining = max_value - current_value` is a
`u32` subtraction in the source; the model (like the claims) is faithful on states
with `current_value ≤ max_value`. In the wrap branch the source computes
`min_value + value - remaining - 1` in `u32`; since `remaining < value ≤ u32::MAX`
the mathematical value fits in `u32`, so plain `Nat` arithmetic models the
release-mode (wrapping) semantics exactly. -/
def SequenceNumberHandle.increment (h : SequenceNumberHandle) (value : Nat) :
    SequenceNumberHandle :=
  let remaining := h.max_value - h.current_value
  if remaining < value then
    { h with current_value := h.min_value + (value - remaining - 1) }
  else
    { h with current_value := h.current_value + value }

/-! ## Definitions: OPC UA value types used by the crypto layer.
    The `opcua-types` crate is not part of the sources under verification, so
    these carriers are modelled from the spec. -/

/-- Modelled from the spec: OPC UA `UAString`, a possibly-null string. -/
structure UAString where
  value : Option String
deriving Repr, DecidableEq

/-- `UAString::null`. -/
def UAString.null : UAString := ⟨none⟩

/-- `UAString::is_null`. -/
def UAString.is_null (s : UAString) : Bool := s.value.isNone

/-- `UAString::is_empty`: null or zero length. -/
def UAString.is_empty (s : UAString) : Bool :=
  match s.value with
  | none => true
  | some v => v = ""

/-- `UAString::as_ref`: the contained string, empty when null. -/
def UAString.as_ref (s : UAString) : String := s.value.getD ""

/-- `UAString::from(&str)`. -/
def UAString.fromString (v : String) : UAString := ⟨some v⟩

/-- Modelled from the spec: OPC UA `ByteString`, a possibly-null byte vector;
bytes are `Nat`s below 256. -/
structure ByteString where
  value : Option (List Nat)
deriving Repr, DecidableEq

/-- `ByteString::is_null`. -/
def ByteString.is_null (b : ByteString) : Bool := b.value.isNone

/-- `ByteString::from(&[u8])`. -/
def ByteString.fromBytes (b : List Nat) : ByteString := ⟨some b⟩

/-- Modelled from the spec (§7 error taxonomy): the status codes reachable from
the identity-token encryption paths. -/
inductive StatusCode
  | Good
  | BadSecurityPolicyRejected
  | BadSecurityChecksFailed
  | BadIdentityTokenInvalid
  | BadDecodingError
deriving Repr, DecidableEq

/-- Modelled from the spec: `opcua_types::Error`, a status code plus a message. -/
structure Error where
  status : StatusCode
  message : String
deriving Repr, DecidableEq

/-- `Error::new`. -/
def Error.new (status : StatusCode) (message : String) : Error := ⟨status, message⟩

/-- `Error::decoding`: an error with status `BadDecodingError`. -/
def Error.decoding (message : String) : Error := ⟨.BadDecodingError, message⟩

/-- Result of a Rust function that can also panic (slice-index or arithmetic
overflow in debug builds); `panicked` marks those control paths. -/
inductive RustResult (α : Type)
  | ok (val : α)
  | err (e : Error)
  | panicked
deriving Repr, DecidableEq

/-- The status of an error result, `none` for `ok` and `panicked`. -/
def RustResult.statusOf : RustResult α → Option StatusCode
  | .err e => some e.status
  | _ => none

/-- The status of an `Except Error` error, `none` for `ok`. -/
def exceptStatusOf : Except Error α → Option StatusCode
  | .error e => some e.status
  | .ok _ => none

instance {ε α : Type} [DecidableEq ε] [DecidableEq α] :
    DecidableEq (Except ε α) := fun x y =>
  match x, y with
  | .ok a, .ok b => decidable_of_iff (a = b) (by simp)
  | .error a, .error b => decidable_of_iff (a = b) (by simp)
  | .ok _, .error _ => isFalse (by simp)
  | .error _, .ok _ => isFalse (by simp)

/-! ## Definitions: security policies.
    `SecurityPolicy` and its tables live in the `opcua-crypto` crate outside the
    sources under verification; they are modelled from the spec (§6), consistent
    with the repository's own tests in
    async-opcua-crypto/src/tests/authentication.rs. -/

/-- Modelled from the spec: the wire security policies (§6) plus `Unknown` for
unrecognised URIs. -/
inductive SecurityPolicy
  | None
  | Basic128Rsa15
  | Basic256Sha256
  | Aes128Sha256RsaOaep
  | Aes256Sha256RsaPss
  | Unknown
deriving Repr, DecidableEq, Fintype

/-- `opcua_types::MessageSecurityMode`. -/
inductive MessageSecurityMode
  | Invalid
  | None
  | Sign
  | SignAndEncrypt
deriving Repr, DecidableEq, Fintype

/-- Modelled from the spec: the asymmetric paddings bound to the policies. -/
inductive RsaPadding
  | Pkcs1
  | OaepSha1
  | OaepSha256
deriving Repr, DecidableEq

/-- `algorithms::ENC_RSA_15`. -/
def ENC_RSA_15 : String := "http://www.w3.org/2001/04/xmlenc#rsa-1_5"

/-- `algorithms::ENC_RSA_OAEP`. -/
def ENC_RSA_OAEP : String := "http://www.w3.org/2001/04/xmlenc#rsa-oaep"

/-- `algorithms::ENC_RSA_OAEP_SHA256`. -/
def ENC_RSA_OAEP_SHA256 : String :=
  "http://opcfoundation.org/UA/security/rsa-oaep-sha2-256"

/-- Modelled from the spec: `SecurityPolicy::from_str` is total and maps
unrecognised URIs to `Unknown` (§6 says unknown policy URIs are rejected). -/
def SecurityPolicy.from_str (s : String) : SecurityPolicy :=
  if s = "http://opcfoundation.org/UA/SecurityPolicy#None" then .None
  else if s = "http://opcfoundation.org/UA/SecurityPolicy#Basic128Rsa15" then
    .Basic128Rsa15
  else if s = "http://opcfoundation.org/UA/SecurityPolicy#Basic256Sha256" then
    .Basic256Sha256
  else if s = "http://opcfoundation.org/UA/SecurityPolicy#Aes128_Sha256_RsaOaep" then
    .Aes128Sha256RsaOaep
  else if s = "http://opcfoundation.org/UA/SecurityPolicy#Aes256_Sha256_RsaPss" then
    .Aes256Sha256RsaPss
  else .Unknown

/-- Modelled from the spec (§6: each policy binds to an asymmetric padding
`Pkcs1`, `OaepSha1`, `OaepSha256`, `OaepSha256`+PSS); `None`/`Unknown` support
no asymmetric encryption. -/
def SecurityPolicy.asymmetric_encryption_padding :
    SecurityPolicy → Option RsaPadding
  | .Basic128Rsa15 => some .Pkcs1
  | .Basic256Sha256 => some .OaepSha1
  | .Aes128Sha256RsaOaep => some .OaepSha256
  | .Aes256Sha256RsaPss => some .OaepSha256
  | _ => none

/-- Modelled from the spec: the algorithm URI bound to each policy's asymmetric
padding (pinned by tests #5/#6 in authentication.rs: `Basic256Sha256` uses
the rsa-oaep URI, `Aes256Sha256RsaPss` the rsa-oaep-sha2-256 URI). -/
def SecurityPolicy.asymmetric_encryption_algorithm :
    SecurityPolicy → Option String
  | .Basic128Rsa15 => some ENC_RSA_15
  | .Basic256Sha256 => some ENC_RSA_OAEP
  | .Aes128Sha256RsaOaep => some ENC_RSA_OAEP_SHA256
  | .Aes256Sha256RsaPss => some ENC_RSA_OAEP_SHA256
  | _ => none

/-- Modelled from the spec: an X.509 certificate, abstracted to the public-key
encryption primitive it provides (`public_key()` + `public_encrypt`). -/
structure X509 where
  public_encrypt : RsaPadding → List Nat → List Nat

/-- Modelled from the spec: a private key, abstracted to its RSA decryption
primitive (`private_decrypt`); `none` models a backend decryption failure.
The returned list is the decrypted plaintext; its length is the `actual_size`
the source receives, and the plaintext is written into a zero-initialised
buffer of the ciphertext's length. -/
structure PrivateKey where
  private_decrypt : RsaPadding → List Nat → Option (List Nat)

/-- `opcua_types::UserTokenType`. -/
inductive UserTokenType
  | Anonymous
  | UserName
  | Certificate
  | IssuedToken
deriving Repr, DecidableEq

/-- `opcua_types::UserTokenPolicy`. -/
structure UserTokenPolicy where
  policy_id : UAString
  token_type : UserTokenType
  issued_token_type : UAString
  issuer_endpoint_url : UAString
  security_policy_uri : UAString
deriving Repr, DecidableEq

/-! ## Definitions: legacy secret encryption
    (async-opcua-crypto/src/user_identity.rs). -/

/-- `LegacyEncryptedSecret` (user_identity.rs lines 90-97). -/
structure LegacyEncryptedSecret where
  policy : UAString
  secret : ByteString
  encryption_algorithm : UAString
deriving Repr, DecidableEq

/-- `EncryptionMode` (user_identity.rs lines 99-102). -/
inductive EncryptionMode
  | None
  | AsymmetricFor (policy : SecurityPolicy)
deriving Repr, DecidableEq

/-- `write_u32`: little-endian byte image of `n` as a `u32`
(the `usize as u32` cast in the caller wraps, which the byte decomposition
makes explicit). -/
def u32le (n : Nat) : List Nat :=
  [n % 256, n / 256 % 256, n / 65536 % 256, n / 16777216 % 256]

/-- `read_u32`: reads a little-endian `u32` from the front of the buffer,
failing when fewer than 4 bytes remain. -/
def read_u32le : List Nat → Option Nat
  | b0 :: b1 :: b2 :: b3 :: _ => some (b0 + 256 * b1 + 65536 * b2 + 16777216 * b3)
  | _ => none

/-- `legacy_secret_encrypt` (user_identity.rs lines 217-244): builds
`[u32 length][password][server_nonce]` and RSA-encrypts it with the server
certificate's public key. The source's
`assert_eq!(actual_size, cipher_size)` ties the ciphertext length to
`calculate_cipher_text_size`; the abstract `public_encrypt` returns the full
ciphertext directly. -/
def legacy_secret_encrypt (password server_nonce : List Nat) (server_cert : X509)
    (padding : RsaPadding) : Except Error ByteString :=
  let plaintext_size := 4 + password.length + server_nonce.length
  let src := u32le (plaintext_size - 4) ++ password ++ server_nonce
  .ok (ByteString.fromBytes (server_cert.public_encrypt padding src))

/-- `legacy_secret_decrypt` (user_identity.rs lines 248-306). The decrypted
plaintext lands in a zero-initialised buffer of the ciphertext's length
(`vec![0u8; src.len()]`), so bytes past the decrypted size are zero; the
padding check reads that buffer to its end. The two slice/subtraction panics
(`actual_size - nonce_len` underflow, and `&dst[4..nonce_begin]` with
`nonce_begin < 4`) are modelled by `panicked`. -/
def legacy_secret_decrypt (secret : ByteString) (server_nonce : List Nat)
    (server_key : PrivateKey) (padding : RsaPadding) : RustResult ByteString :=
  match secret.value with
  | none => .err (Error.decoding "Missing server secret")
  | some src =>
    match server_key.private_decrypt padding src with
    | none => .err (Error.decoding "private_decrypt failed")
    | some decrypted =>
      let dst0 := decrypted ++ List.replicate (src.length - decrypted.length) 0
      match read_u32le dst0 with
      | none => .err (Error.decoding "buffer too short for length prefix")
      | some plaintext_size =>
        let actual_size := decrypted.length
        let afterStrip :=
          if plaintext_size + 4 < actual_size then
            if (dst0.drop (plaintext_size + 4)).all (fun x => x = 0) then
              some (dst0.take (plaintext_size + 4), plaintext_size + 4)
            else none
          else some (dst0, actual_size)
        match afterStrip with
        | none => .err (Error.decoding "Non-zero padding bytes in decrypted password")
        | some (dst, actual_size) =>
          if plaintext_size + 4 ≠ actual_size then
            .err (Error.decoding "Invalid plaintext size")
          else if actual_size < server_nonce.length then
            .panicked
          else
            let nonce_begin := actual_size - server_nonce.length
            let nonce := (dst.drop nonce_begin).take server_nonce.length
            if nonce ≠ server_nonce then
              .err (Error.decoding "Invalid nonce")
            else if nonce_begin < 4 then
              .panicked
            else
              .ok (ByteString.fromBytes ((dst.drop 4).take (nonce_begin - 4)))

/-- `legacy_decrypt_secret` (user_identity.rs lines 63-87) specialised to
`LegacyEncryptedSecret`: dispatch on the declared encryption algorithm; an
empty algorithm means the secret is plaintext. -/
def legacy_decrypt_secret (secret : LegacyEncryptedSecret)
    (server_nonce : List Nat) (server_key : PrivateKey) : RustResult ByteString :=
  if secret.encryption_algorithm.is_empty then
    .ok secret.secret
  else
    let encryption_algorithm := secret.encryption_algorithm.as_ref
    if encryption_algorithm = ENC_RSA_15 then
      legacy_secret_decrypt secret.secret server_nonce server_key .Pkcs1
    else if encryption_algorithm = ENC_RSA_OAEP then
      legacy_secret_decrypt secret.secret server_nonce server_key .OaepSha1
    else if encryption_algorithm = ENC_RSA_OAEP_SHA256 then
      legacy_secret_decrypt secret.secret server_nonce server_key .OaepSha256
    else
      .err (Error.new .BadIdentityTokenInvalid
        "Identity token rejected, unsupported encryption algorithm")

/-- The token security policy computed at the top of `legacy_encrypt_secret`
(user_identity.rs lines 114-118): `None` when the URI is empty; `from_str`
never fails, so the source's `.unwrap()` cannot panic. -/
def user_token_security_policy_of (user_token_policy : UserTokenPolicy) :
    Option SecurityPolicy :=
  if user_token_policy.security_policy_uri.is_empty then none
  else some (SecurityPolicy.from_str user_token_policy.security_policy_uri.as_ref)

/-- The ordered §7.41 match of `legacy_encrypt_secret`
(user_identity.rs lines 121-164), extracted as a function. -/
def legacy_encrypt_mode_select (channel_security_policy : SecurityPolicy)
    (channel_security_mode : MessageSecurityMode)
    (token_security_policy : Option SecurityPolicy) : Except Error EncryptionMode :=
  match channel_security_policy, channel_security_mode, token_security_policy with
  | _, _, some .Unknown | .Unknown, _, _ =>
    .error (Error.new .BadSecurityPolicyRejected "Unknown user token security policy")
  | .None, .None, some .None | .None, .None, none => .ok .None
  | .None, .None, some p => .ok (.AsymmetricFor p)
  | p, .Sign, none | p, .SignAndEncrypt, none => .ok (.AsymmetricFor p)
  | _, .SignAndEncrypt, some .None => .ok .None
  | _, .Sign, some .None =>
    .error (Error.new .BadSecurityPolicyRejected
      "User token policy security policy is None but message security mode is Sign")
  | _, .Sign, some p | _, .SignAndEncrypt, some p => .ok (.AsymmetricFor p)
  | _, .None, _ | _, .Invalid, _ =>
    .error (Error.new .BadSecurityChecksFailed "Invalid message security mode")

/-- `legacy_encrypt_secret` (user_identity.rs lines 106-213): §7.41 mode
selection, then plaintext passthrough or RSA encryption under the selected
policy. The `cert.as_ref().unwrap()` panic on a missing certificate is
`panicked`. The source's plaintext-warning log has no effect on the result. -/
def legacy_encrypt_secret (channel_security_policy : SecurityPolicy)
    (channel_security_mode : MessageSecurityMode)
    (user_token_policy : UserTokenPolicy) (nonce : List Nat) (cert : Option X509)
    (secret_to_encrypt : List Nat) : RustResult LegacyEncryptedSecret :=
  let token_security_policy := user_token_security_policy_of user_token_policy
  match legacy_encrypt_mode_select channel_security_policy channel_security_mode
      token_security_policy with
  | .error e => .err e
  | .ok .None =>
    .ok { secret := ByteString.fromBytes secret_to_encrypt,
          encryption_algorithm := UAString.null,
          policy := user_token_policy.policy_id }
  | .ok (.AsymmetricFor security_policy) =>
    match cert with
    | none => .panicked
    | some c =>
      match security_policy.asymmetric_encryption_padding with
      | none => .err (Error.new .BadSecurityPolicyRejected
          "Security policy does not support asymmetric encryption")
      | some padding =>
        match legacy_secret_encrypt secret_to_encrypt nonce c padding with
        | .error e => .err e
        | .ok password =>
          match security_policy.asymmetric_encryption_algorithm with
          | none => .err (Error.new .BadSecurityPolicyRejected
              "Security policy does not support asymmetric encryption")
          | some alg =>
            .ok { secret := password,
                  encryption_algorithm := UAString.fromString alg,
                  policy := user_token_policy.policy_id }

/-- Concrete private key for the C3 counterexample: the RSA backend decrypts
the 4-byte ciphertext to the 4-byte plaintext `[0,0,0,0]` (declared secret
size 0). -/
def c3CexKey : PrivateKey := ⟨fun _ _ => some [0, 0, 0, 0]⟩

/-- The zero-initialised buffer of ciphertext length that
`legacy_secret_decrypt` works on after the RSA decryption step. -/
def legacyDecryptBuffer (decrypted : List Nat) (srcLen : Nat) : List Nat :=
  decrypted ++ List.replicate (srcLen - decrypted.length) 0

/-- The declared plaintext region: length prefix plus declared secret size. -/
def ldbRegion (decrypted : List Nat) (srcLen psize : Nat) : List Nat :=
  (legacyDecryptBuffer decrypted srcLen).take (psize + 4)

/-- The trailing `nl` bytes of the declared plaintext region, which
`legacy_secret_decrypt` compares against the server nonce. -/
def ldbTrailing (decrypted : List Nat) (srcLen psize nl : Nat) : List Nat :=
  ((ldbRegion decrypted srcLen psize).drop (psize + 4 - nl)).take nl

/-- Whether every padding byte after the declared plaintext region is zero. -/
def ldbPaddingZero (decrypted : List Nat) (srcLen psize : Nat) : Bool :=
  ((legacyDecryptBuffer decrypted srcLen).drop (psize + 4)).all (fun x => x = 0)

/-- Identity "RSA" certificate for witnesses: the abstract public-key primitive
is the identity on byte lists. -/
def identityX509 : X509 := ⟨fun _ m => m⟩

/-- Identity "RSA" private key for witnesses, inverse of `identityX509`. -/
def identityKey : PrivateKey := ⟨fun _ m => some m⟩

/-- User token policy for the C2 witness: token policy Basic256Sha256. -/
def c2WitnessPolicy : UserTokenPolicy :=
  { policy_id := ⟨some "x"⟩,
    token_type := .UserName,
    issued_token_type := ⟨none⟩,
    issuer_endpoint_url := ⟨none⟩,
    security_policy_uri :=
      ⟨some "http://opcfoundation.org/UA/SecurityPolicy#Basic256Sha256"⟩ }

/-- The secret produced by the C2 witness: `[u32 20]["abcdef123456"][nonce]`
under the identity cipher, tagged with the rsa-oaep algorithm URI. -/
def c2WitnessToken : LegacyEncryptedSecret :=
  { policy := ⟨some "x"⟩,
    secret := ByteString.fromBytes
      ([20, 0, 0, 0] ++ [97, 98, 99, 100, 101, 102, 49, 50, 51, 52, 53, 54] ++
        [1, 2, 3, 4, 5, 6, 7, 8]),
    encryption_algorithm := ⟨some ENC_RSA_OAEP⟩ }

/-- Private key for the C3 witness: decrypts to a plaintext that declares an
8-byte secret whose trailing bytes are `[7,7,7,7]`. -/
def c3WitnessKey : PrivateKey :=
  ⟨fun _ _ => some ([8, 0, 0, 0] ++ [9, 9, 9, 9] ++ [7, 7, 7, 7])⟩

/-- `opcua_types::AnonymousIdentityToken`. -/
structure AnonymousIdentityToken where
  policy_id : UAString
deriving Repr, DecidableEq

/-- `opcua_types::UserNameIdentityToken`. -/
structure UserNameIdentityToken where
  policy_id : UAString
  user_name : UAString
  password : ByteString
  encryption_algorithm : UAString
deriving Repr, DecidableEq

/-- `opcua_types::X509IdentityToken`. -/
structure X509IdentityToken where
  policy_id : UAString
  certificate_data : ByteString
deriving Repr, DecidableEq

/-- `opcua_types::IssuedIdentityToken`. -/
structure IssuedIdentityToken where
  policy_id : UAString
  token_data : ByteString
  encryption_algorithm : UAString
deriving Repr, DecidableEq

/-- Modelled from the spec: an `ExtensionObject` is a dynamically-typed body.
The dynamic-type dispatch of `match_extension_object_owned` is modelled by the
constructors; `other` stands for a body of any other type. -/
inductive ExtensionObject
  | null
  | anonymous (t : AnonymousIdentityToken)
  | userName (t : UserNameIdentityToken)
  | x509 (t : X509IdentityToken)
  | issued (t : IssuedIdentityToken)
  | other (raw : Nat)
deriving Repr, DecidableEq

/-- `ExtensionObject::is_null`. -/
def ExtensionObject.is_null : ExtensionObject → Bool
  | .null => true
  | _ => false

/-! ## Definitions: client subscriptions
    (async-opcua-client/src/session/services/subscriptions/mod.rs). -/

/-- Semantic model of `HashMap<u32, V>`: a partial map on `Nat` keys. -/
def HMap (β : Type) : Type := Nat → Option β

/-- `HashMap::new`. -/
def HMap.empty {β : Type} : HMap β := fun _ => none

/-- `HashMap::insert`. -/
def HMap.insert {β : Type} (m : HMap β) (k : Nat) (v : β) : HMap β :=
  fun q => if q = k then some v else m q

/-- `HashMap::remove`. -/
def HMap.remove {β : Type} (m : HMap β) (k : Nat) : HMap β :=
  fun q => if q = k then none else m q

/-- `HashMap::get`. -/
def HMap.get {β : Type} (m : HMap β) (k : Nat) : Option β := m k

/-- `opcua_types::ReadValueId` (node id, attribute, index range, encoding),
opaque to the subscription bookkeeping. -/
structure ReadValueId where
  raw : Nat
deriving Repr, DecidableEq

/-- `opcua_types::MonitoringMode`. -/
inductive MonitoringMode
  | Disabled
  | Sampling
  | Reporting
deriving Repr, DecidableEq

/-- Opaque carrier for an `f64` value (the bit pattern); the subscription
bookkeeping never computes with sampling intervals. -/
structure F64Bits where
  bits : Nat
deriving Repr, DecidableEq

/-- Client-side `MonitoredItem` (subscriptions/mod.rs lines 43-64);
`triggered_items` models the `BTreeSet<u32>` by its element list. -/
structure MonitoredItem where
  id : Nat
  client_handle : Nat
  item_to_monitor : ReadValueId
  queue_size : Nat
  monitoring_mode : MonitoringMode
  sampling_interval : F64Bits
  triggered_items : List Nat
  discard_oldest : Bool
  filter : ExtensionObject
deriving Repr, DecidableEq

/-- `MonitoredItem::new` (subscriptions/mod.rs lines 67-80). -/
def MonitoredItem.new (client_handle : Nat) : MonitoredItem :=
  { id := 0,
    client_handle := client_handle,
    item_to_monitor := ⟨0⟩,
    queue_size := 1,
    monitoring_mode := .Reporting,
    sampling_interval := ⟨0⟩,
    triggered_items := [],
    discard_oldest := true,
    filter := .null }

/-- `CreateMonitoredItem` (subscriptions/mod.rs lines 26-35). -/
structure CreateMonitoredItem where
  id : Nat
  client_handle : Nat
  item_to_monitor : ReadValueId
  monitoring_mode : MonitoringMode
  queue_size : Nat
  discard_oldest : Bool
  sampling_interval : F64Bits
  filter : ExtensionObject
deriving Repr, DecidableEq

/-- `ModifyMonitoredItem` (subscriptions/mod.rs lines 37-41). -/
structure ModifyMonitoredItem where
  id : Nat
  sampling_interval : F64Bits
  queue_size : Nat
deriving Repr, DecidableEq

/-- Client-side `Subscription` (subscriptions/mod.rs lines 139-161). The boxed
notification callback is not part of the state; its invocation trace is
modelled by `on_subscription_notification` below. -/
structure Subscription where
  subscription_id : Nat
  publishing_interval : Nat
  lifetime_count : Nat
  max_keep_alive_count : Nat
  max_notifications_per_publish : Nat
  publishing_enabled : Bool
  priority : Nat
  monitored_items : HMap MonitoredItem
  client_handles : HMap Nat

/-- `Subscription::new` (subscriptions/mod.rs lines 166-188). -/
def Subscription.new (subscription_id publishing_interval lifetime_count
    max_keep_alive_count max_notifications_per_publish priority : Nat)
    (publishing_enabled : Bool) : Subscription :=
  { subscription_id := subscription_id,
    publishing_interval := publishing_interval,
    lifetime_count := lifetime_count,
    max_keep_alive_count := max_keep_alive_count,
    max_notifications_per_publish := max_notifications_per_publish,
    publishing_enabled := publishing_enabled,
    priority := priority,
    monitored_items := HMap.empty,
    client_handles := HMap.empty }

/-- `Subscription::insert_existing_monitored_item`
(subscriptions/mod.rs lines 234-244). -/
def Subscription.insert_existing_monitored_item (s : Subscription)
    (item : MonitoredItem) : Subscription :=
  { s with
    monitored_items := s.monitored_items.insert item.id item,
    client_handles := s.client_handles.insert item.client_handle item.id }

/-- The `MonitoredItem` literal built for each `CreateMonitoredItem`
(subscriptions/mod.rs lines 272-282). -/
def CreateMonitoredItem.toMonitoredItem (i : CreateMonitoredItem) :
    MonitoredItem :=
  { id := i.id,
    client_handle := i.client_handle,
    item_to_monitor := i.item_to_monitor,
    queue_size := i.queue_size,
    monitoring_mode := i.monitoring_mode,
    sampling_interval := i.sampling_interval,
    triggered_items := [],
    discard_oldest := i.discard_oldest,
    filter := i.filter }

/-- `Subscription::insert_monitored_items` (subscriptions/mod.rs
lines 270-286): the loop body of the `for_each`. -/
def Subscription.insert_monitored_items (s : Subscription)
    (items_to_create : List CreateMonitoredItem) : Subscription :=
  items_to_create.foldl
    (fun acc i => acc.insert_existing_monitored_item i.toMonitoredItem) s

/-- The loop body of `Subscription::modify_monitored_items`
(subscriptions/mod.rs lines 289-294). -/
def Subscription.modify_one (s : Subscription) (i : ModifyMonitoredItem) :
    Subscription :=
  match s.monitored_items.get i.id with
  | some monitored_item =>
    { s with
      monitored_items := s.monitored_items.insert i.id
        { monitored_item with
          sampling_interval := i.sampling_interval,
          queue_size := i.queue_size } }
  | none => s

/-- `Subscription::modify_monitored_items` (subscriptions/mod.rs
lines 288-295). -/
def Subscription.modify_monitored_items (s : Subscription)
    (items_to_modify : List ModifyMonitoredItem) : Subscription :=
  items_to_modify.foldl Subscription.modify_one s

/-- The loop body of `Subscription::delete_monitored_items`
(subscriptions/mod.rs lines 298-303). -/
def Subscription.delete_one (s : Subscription) (id : Nat) : Subscription :=
  match s.monitored_items.get id with
  | some monitored_item =>
    { s with
      monitored_items := s.monitored_items.remove id,
      client_handles := s.client_handles.remove monitored_item.client_handle }
  | none => s

/-- `Subscription::delete_monitored_items` (subscriptions/mod.rs
lines 297-304). -/
def Subscription.delete_monitored_items (s : Subscription)
    (items_to_delete : List Nat) : Subscription :=
  items_to_delete.foldl Subscription.delete_one s

/-- A monitored-item operation on a subscription (the operations named by the
claim: insert/create, modify, delete). -/
inductive SubscriptionOp
  | insertExisting (item : MonitoredItem)
  | create (items : List CreateMonitoredItem)
  | modify (items : List ModifyMonitoredItem)
  | delete (ids : List Nat)

/-- Apply one operation. -/
def Subscription.applyOp (s : Subscription) : SubscriptionOp → Subscription
  | .insertExisting item => s.insert_existing_monitored_item item
  | .create items => s.insert_monitored_items items
  | .modify items => s.modify_monitored_items items
  | .delete ids => s.delete_monitored_items ids

/-- Apply a sequence of operations. -/
def Subscription.applyOps (s : Subscription) (ops : List SubscriptionOp) :
    Subscription :=
  ops.foldl Subscription.applyOp s

/-- The monitored-item ids inserted by one operation. -/
def opInsertedIds : SubscriptionOp → List Nat
  | .insertExisting item => [item.id]
  | .create items => items.map (fun i => i.id)
  | _ => []

/-- The client handles inserted by one operation. -/
def opInsertedHandles : SubscriptionOp → List Nat
  | .insertExisting item => [item.client_handle]
  | .create items => items.map (fun i => i.client_handle)
  | _ => []

/-- All monitored-item ids inserted by a sequence of operations. -/
def insertedIds (ops : List SubscriptionOp) : List Nat :=
  (ops.map opInsertedIds).flatten

/-- All client handles inserted by a sequence of operations. -/
def insertedHandles (ops : List SubscriptionOp) : List Nat :=
  (ops.map opInsertedHandles).flatten

/-- The claimed invariant: `client_handles` maps `h` to `id` exactly when
`monitored_items` holds an item under `id` whose client handle is `h`. -/
def SubscriptionInvariant (s : Subscription) : Prop :=
  ∀ h id, s.client_handles.get h = some id ↔
    (∃ item, s.monitored_items.get id = some item ∧ item.client_handle = h)

/-- A monitored item with the given id and client handle, other fields at the
defaults, used by the C6 counterexample and witness. -/
def c6Item (id client_handle : Nat) : MonitoredItem :=
  { MonitoredItem.new client_handle with id := id }

/-- A freshly created subscription, used by the C6 counterexample. -/
def c6Base : Subscription := Subscription.new 1 0 0 0 0 0 true

/-! ## Definitions: notification dispatch
    (async-opcua-client/src/session/services/subscriptions/callbacks.rs). -/

/-- `opcua_types::DataValue`, opaque to the dispatch logic. -/
structure DataValue where
  raw : Nat
deriving Repr, DecidableEq

/-- `opcua_types::Variant`, opaque to the dispatch logic. -/
structure Variant where
  raw : Nat
deriving Repr, DecidableEq

/-- `opcua_types::MonitoredItemNotification`. -/
structure MonitoredItemNotification where
  client_handle : Nat
  value : DataValue
deriving Repr, DecidableEq

/-- `opcua_types::EventFieldList`. -/
structure EventFieldList where
  client_handle : Nat
  event_fields : Option (List Variant)
deriving Repr, DecidableEq

/-- `opcua_types::DataChangeNotification` (diagnostic infos omitted: unused). -/
structure DataChangeNotification where
  monitored_items : Option (List MonitoredItemNotification)
deriving Repr, DecidableEq

/-- `opcua_types::EventNotificationList`. -/
structure EventNotificationList where
  events : Option (List EventFieldList)
deriving Repr, DecidableEq

/-- `opcua_types::StatusChangeNotification`, opaque payload. -/
structure StatusChangeNotification where
  status : Nat
deriving Repr, DecidableEq

/-- A notification payload: the dynamic `ExtensionObject` bodies the dispatch
matches on (`other` stands for any unrecognised body, which the source's
`match_extension_object_owned` skips). -/
inductive NotificationData
  | dataChange (v : DataChangeNotification)
  | events (v : EventNotificationList)
  | statusChange (v : StatusChangeNotification)
  | other (raw : Nat)
deriving Repr, DecidableEq

/-- `opcua_types::NotificationMessage` (fields unused by dispatch are opaque). -/
structure NotificationMessage where
  sequence_number : Nat
  publish_time : Nat
  notification_data : Option (List NotificationData)
deriving Repr, DecidableEq

/-- `MonitoredItemMap` (subscriptions/mod.rs lines 326-331). -/
structure MonitoredItemMap where
  monitored_items : HMap MonitoredItem
  client_handles : HMap Nat

/-- `MonitoredItemMap::get` (subscriptions/mod.rs lines 344-348). -/
def MonitoredItemMap.get (m : MonitoredItemMap) (client_handle : Nat) :
    Option MonitoredItem :=
  (m.client_handles.get client_handle).bind (fun id => m.monitored_items.get id)

/-- One observable callback invocation (or warning log) of the dispatcher. -/
inductive CallbackEvent
  | dataValue (value : DataValue) (item : MonitoredItem)
  | event (fields : Option (List Variant)) (item : MonitoredItem)
  | statusChange (v : StatusChangeNotification)
  | warned (client_handle : Nat)
deriving Repr, DecidableEq

/-- The `DataChangeNotification` loop body (callbacks.rs lines 36-44): a known
client handle invokes `on_data_value`, an unknown handle logs a warning. -/
def dispatch_data_step (m : MonitoredItemMap) (acc : List CallbackEvent)
    (notif : MonitoredItemNotification) : List CallbackEvent :=
  match m.get notif.client_handle with
  | some item => acc ++ [CallbackEvent.dataValue notif.value item]
  | none => acc ++ [CallbackEvent.warned notif.client_handle]

/-- The `EventNotificationList` loop body (callbacks.rs lines 47-53): a known
client handle invokes `on_event`; an unknown handle is silently dropped. -/
def dispatch_event_step (m : MonitoredItemMap) (acc : List CallbackEvent)
    (notif : EventFieldList) : List CallbackEvent :=
  match m.get notif.client_handle with
  | some item => acc ++ [CallbackEvent.event notif.event_fields item]
  | none => acc

/-- The per-payload body of the `match_extension_object_owned` dispatch
(callbacks.rs lines 33-59); unrecognised payload types are skipped. -/
def dispatch_payload (m : MonitoredItemMap) (acc : List CallbackEvent) :
    NotificationData → List CallbackEvent
  | .dataChange v => (v.monitored_items.getD []).foldl (dispatch_data_step m) acc
  | .events v => (v.events.getD []).foldl (dispatch_event_step m) acc
  | .statusChange v => acc ++ [CallbackEvent.statusChange v]
  | .other _ => acc

/-- `on_subscription_notification` (callbacks.rs lines 24-61), embedded as the
trace of callback invocations: a message with no notification data invokes
nothing; otherwise each payload appends the events the source emits. -/
def on_subscription_notification (monitored_items : MonitoredItemMap)
    (notification : NotificationMessage) : List CallbackEvent :=
  match notification.notification_data with
  | none => []
  | some notifications =>
    notifications.foldl (dispatch_payload monitored_items) []

/-- The per-payload dispatch described by the claim: each
`MonitoredItemNotification` whose client handle resolves through
`client_handles` invokes `on_data_value(value, item)` exactly once, an unknown
handle produces a warning and is dropped; an event list resolves the same way
and invokes `on_event(fields, item)` for known handles; a status change
invokes `on_subscription_status_change`. -/
def notificationDispatchSpec (monitored_items : MonitoredItemMap) :
    NotificationData → List CallbackEvent
  | .dataChange v =>
    (v.monitored_items.getD []).map (fun notif =>
      match monitored_items.get notif.client_handle with
      | some item => CallbackEvent.dataValue notif.value item
      | none => CallbackEvent.warned notif.client_handle)
  | .events v =>
    (v.events.getD []).filterMap (fun notif =>
      (monitored_items.get notif.client_handle).map
        (fun item => CallbackEvent.event notif.event_fields item))
  | .statusChange v => [CallbackEvent.statusChange v]
  | .other _ => []

/-! ## Definitions: client password redaction
    (async-opcua-client/src/identity_token.rs). -/

/-- `Password` (identity_token.rs lines 45-48): a wrapper around the password
string whose Debug implementation redacts the contents. -/
structure Password where
  value : String
deriving Repr, DecidableEq

/-- Rendering of `Formatter::debug_tuple(name).field(&x).finish()` on one
field. -/
def debug_tuple_fmt (name : String) (field : String) : String :=
  name ++ "(" ++ field ++ ")"

/-- Debug rendering of a `&str` field: the string in double quotes (the
redaction token contains no characters needing escapes). -/
def str_debug_fmt (s : String) : String := "\"" ++ s ++ "\""

/-- `impl Debug for Password` (identity_token.rs lines 66-70): renders the
fixed tuple with the literal `"*****"`, never reading the wrapped string. -/
def Password.debug_fmt (_p : Password) : String :=
  debug_tuple_fmt "Password" (str_debug_fmt "*****")

/-! ## Definitions: server identity tokens
    (async-opcua-server/src/identity_token.rs). -/

/-- `POLICY_ID_ANONYMOUS` (identity_token.rs line 10). -/
def POLICY_ID_ANONYMOUS : String := "anonymous"

/-- `POLICY_ID_USER_PASS_NONE` (identity_token.rs line 11). -/
def POLICY_ID_USER_PASS_NONE : String := "userpass_none"

/-- `POLICY_ID_USER_PASS_RSA_15` (identity_token.rs line 12). -/
def POLICY_ID_USER_PASS_RSA_15 : String := "userpass_rsa_15"

/-- `POLICY_ID_USER_PASS_RSA_OAEP` (identity_token.rs line 13). -/
def POLICY_ID_USER_PASS_RSA_OAEP : String := "userpass_rsa_oaep"

/-- `POLICY_ID_X509` (identity_token.rs line 19). -/
def POLICY_ID_X509 : String := "x509"

/-- Server-side `IdentityToken` (identity_token.rs lines 22-35). -/
inductive IdentityToken
  | None
  | Anonymous (t : AnonymousIdentityToken)
  | UserName (t : UserNameIdentityToken)
  | X509 (t : X509IdentityToken)
  | IssuedToken (t : IssuedIdentityToken)
  | Invalid (o : ExtensionObject)
deriving Repr, DecidableEq

/-- `IdentityToken::new` (identity_token.rs lines 40-55): null decodes as
anonymous; known bodies map to their variants; anything else is `Invalid`
carrying the original object. -/
def IdentityToken.new (o : ExtensionObject) : IdentityToken :=
  if o.is_null then
    .Anonymous { policy_id := UAString.fromString POLICY_ID_ANONYMOUS }
  else
    match o with
    | .anonymous v => .Anonymous v
    | .userName v => .UserName v
    | .x509 v => .X509 v
    | .issued v => .IssuedToken v
    | o2 => .Invalid o2

/-! ## Definitions: publish limits
    (async-opcua-client/src/session/services/subscriptions/mod.rs lines
    351-396). `calculate_publish_limits` divides the millisecond counts as
    `f32`; the model reproduces IEEE-754 single-precision arithmetic on
    naturals: operands and quotient are rounded to 24 significant bits, ties
    to even. -/

def USIZE_MAX : Nat := 18446744073709551615

/-- Round `n / d` to the nearest integer, ties to even (IEEE-754 rounding). -/
def rne (n d : Nat) : Nat :=
  let q := n / d
  let r := n % d
  if 2 * r < d then q
  else if d < 2 * r then q + 1
  else if q % 2 = 0 then q else q + 1

/-- Fuel-bounded floor of log₂, exact for `1 ≤ n < 2 ^ fuel`. -/
def lg2 : Nat → Nat → Nat
  | 0, _ => 0
  | fuel + 1, n => if n < 2 then 0 else lg2 fuel (n / 2) + 1

/-- The value of `n as f32` for a natural `n`: exact up to 2^24, otherwise the
significand is rounded to 24 bits, ties to even (model valid for `n < 2^128`,
far beyond the millisecond counts involved). -/
def toF32 (n : Nat) : Nat :=
  if n ≤ 2 ^ 24 then n
  else
    rne n (2 ^ (lg2 256 n - 23)) * 2 ^ (lg2 256 n - 23)

/-- The value of `(a as f32 / b as f32).ceil() as usize`: the exact quotient of
the rounded operands is rounded to a 24-bit significand at its binade (`E` is
the base-2 exponent of the quotient, offset by 64), then `ceil` and the
saturating `usize` cast apply. `0/0` is NaN and casts to 0; `a/0` with
`a > 0` is `+∞` and saturates. -/
def ceilF32Div (a b : Nat) : Nat :=
  if b = 0 then (if a = 0 then 0 else USIZE_MAX)
  else if a = 0 then 0
  else
    let fa := toF32 a
    let fb := toF32 b
    let E := lg2 256 (fa * 2 ^ 64 / fb)
    if 88 ≤ E then
      min (rne fa (fb * 2 ^ (E - 87)) * 2 ^ (E - 87)) USIZE_MAX
    else
      min ((rne (fa * 2 ^ (87 - E)) fb + 2 ^ (87 - E) - 1) / 2 ^ (87 - E))
        USIZE_MAX

/-- `PublishLimits` (subscriptions/mod.rs lines 352-358); durations are in
nanoseconds. -/
structure PublishLimits where
  message_roundtrip : Nat
  publish_interval : Nat
  subscriptions : Nat
  min_publish_requests : Nat
  max_publish_requests : Nat
deriving Repr, DecidableEq

/-- `PublishLimits::MIN_MESSAGE_ROUNDTRIP` (10 ms), in nanoseconds. -/
def MIN_MESSAGE_ROUNDTRIP : Nat := 10000000

/-- `PublishLimits::REQUESTS_PER_SUBSCRIPTION`. -/
def REQUESTS_PER_SUBSCRIPTION : Nat := 2

/-- `PublishLimits::new` (subscriptions/mod.rs lines 364-372). -/
def PublishLimits.new : PublishLimits :=
  { message_roundtrip := MIN_MESSAGE_ROUNDTRIP,
    publish_interval := 0,
    subscriptions := 0,
    min_publish_requests := 0,
    max_publish_requests := 0 }

/-- `PublishLimits::calculate_publish_limits` (subscriptions/mod.rs lines
389-395): `as_millis` truncates to milliseconds, the quotient is `f32`, and
the `usize` products wrap modulo 2^64 (release semantics). -/
def calculate_publish_limits (s : PublishLimits) : PublishLimits :=
  let minP := s.subscriptions * REQUESTS_PER_SUBSCRIPTION % 2 ^ 64
  let maxP := ceilF32Div (s.message_roundtrip / 1000000)
      (s.publish_interval / 1000000) * minP % 2 ^ 64
  { s with min_publish_requests := minP, max_publish_requests := maxP }

/-- `PublishLimits::update_message_roundtrip` (subscriptions/mod.rs lines
374-377). -/
def update_message_roundtrip (s : PublishLimits) (message_roundtrip : Nat) :
    PublishLimits :=
  calculate_publish_limits
    { s with message_roundtrip := max message_roundtrip MIN_MESSAGE_ROUNDTRIP }

/-- `PublishLimits::update_subscriptions` (subscriptions/mod.rs lines
379-387). -/
def update_subscriptions (s : PublishLimits)
    (subscriptions publish_interval : Nat) : PublishLimits :=
  calculate_publish_limits
    { s with
      subscriptions := subscriptions,
      publish_interval := publish_interval }

/-- `⌈a / b⌉` on naturals — the exact formula the spec pins for
`max_publish_requests`. -/
def ceilNat (a b : Nat) : Nat := (a + b - 1) / b

/-- The C7 counterexample state: one subscription at a 1 ms publish interval,
then a measured roundtrip of 16777217 ms (2^24 + 1, not representable in
`f32`). -/
def c7CexState : PublishLimits :=
  update_message_roundtrip (update_subscriptions PublishLimits.new 1 1000000)
    16777217000000

/-- A concrete monitored item for exercising the dispatcher: client handle 5,
registered under monitored-item id 3. -/
def c8Item : MonitoredItem :=
  { MonitoredItem.new 5 with id := 3 }

/-- A monitored-item map holding just `c8Item`: handle 5 resolves, any other
handle is unknown. -/
def c8Map : MonitoredItemMap :=
  { monitored_items := HMap.empty.insert 3 c8Item,
    client_handles := HMap.empty.insert 5 3 }

/-- A notification message with one payload of each kind: a data change with a
known handle (5) and an unknown one (9), an event list likewise, a status
change, and an unrecognised body. -/
def c8Msg : NotificationMessage :=
  { sequence_number := 1,
    publish_time := 0,
    notification_data := some
      [NotificationData.dataChange ⟨some [⟨5, ⟨42⟩⟩, ⟨9, ⟨7⟩⟩]⟩,
       NotificationData.events ⟨some [⟨5, some [⟨11⟩]⟩, ⟨9, none⟩]⟩,
       NotificationData.statusChange ⟨1⟩,
       NotificationData.other 0] }

/-! ## Theorems: sequence numbers -/

/-- C4 counterexample: the claim says
`new_at(legacy, start).increment(delta).current() ∈ [min_value, max_value]` for
every `(legacy, start, delta)`. At `(true, 0, 0)` the handle's current value is
`0`, strictly below the legacy minimum `1`: `new_at` reduces `start` modulo
`max_value`, which can produce `0`, and `increment(0)` keeps it there. -/
theorem c4_range_counterexample :
    ¬ (((SequenceNumberHandle.new_at true 0).increment 0).min_value ≤
        ((SequenceNumberHandle.new_at true 0).increment 0).current ∧
       ((SequenceNumberHandle.new_at true 0).increment 0).current ≤
        ((SequenceNumberHandle.new_at true 0).increment 0).max_value) := by
  decide

/-- C4 (amended): for all `(legacy, start, delta)` with `start` and `delta` in the
`u32` range, if `legacy` is false, or `1 ≤ delta ≤ u32::MAX - 1024`, then the value
after `new_at(legacy, start)` followed by `increment(delta)` lies within
`[min_value, max_value]`. (The original claim fails for `delta = 0` and for
`delta` above the legacy maximum, as the counterexample shows.) -/
theorem c4_increment_in_range (legacy : Bool) (start delta : Nat)
    (hstart : start ≤ U32_MAX) (hdelta : delta ≤ U32_MAX)
    (h : legacy = false ∨ (1 ≤ delta ∧ delta ≤ U32_MAX - 1024)) :
    ((SequenceNumberHandle.new_at legacy start).increment delta).min_value ≤
      ((SequenceNumberHandle.new_at legacy start).increment delta).current ∧
    ((SequenceNumberHandle.new_at legacy start).increment delta).current ≤
      ((SequenceNumberHandle.new_at legacy start).increment delta).max_value := by
  cases legacy with
  | false =>
    simp only [SequenceNumberHandle.new_at, SequenceNumberHandle.increment,
      SequenceNumberHandle.current, SequenceNumberHandle.min_value,
      SequenceNumberHandle.max_value, U32_MAX] at *
    by_cases hlt : 4294967295 - start % 4294967295 < delta <;>
      simp only [if_pos, if_neg, hlt, if_true, if_false, Bool.false_eq_true] <;>
      simp <;> omega
  | true =>
    rcases h with h | h
    · exact absurd h (by simp)
    · simp only [SequenceNumberHandle.new_at, SequenceNumberHandle.increment,
        SequenceNumberHandle.current, SequenceNumberHandle.min_value,
        SequenceNumberHandle.max_value, U32_MAX] at *
      by_cases hlt : 4294966271 - start % 4294966271 < delta <;>
        simp only [if_pos, if_neg, hlt, if_true, if_false] <;>
        simp <;> omega

/-- C4 witness: the amended theorem applied at `(true, 5, 3)`. -/
theorem c4_increment_in_range_witness :
    ((SequenceNumberHandle.new_at true 5).increment 3).min_value ≤
      ((SequenceNumberHandle.new_at true 5).increment 3).current ∧
    ((SequenceNumberHandle.new_at true 5).increment 3).current ≤
      ((SequenceNumberHandle.new_at true 5).increment 3).max_value :=
  c4_increment_in_range true 5 3 (by decide) (by decide) (Or.inr (by decide))

/-- C5: on a handle whose current value `c` does not exceed `max_value`,
`increment(n)` sets the current value to `min_value + (n - remaining - 1)` when
`remaining = max_value - c < n` and to `c + n` otherwise; `set_is_legacy(b)`
applies the same wrap rule when the current value exceeds the maximum of the
toggled handle; and a legacy handle at `u32::MAX - 1025` incremented by 3 has
current value 2. -/
theorem c5_increment_formula (h : SequenceNumberHandle) (n : Nat) (b : Bool)
    (hc : h.current_value ≤ h.max_value) :
    ((h.increment n).current =
      if h.max_value - h.current_value < n then
        h.min_value + (n - (h.max_value - h.current_value) - 1)
      else h.current_value + n) ∧
    ((h.set_is_legacy b).current =
      if ({ h with is_legacy := b } : SequenceNumberHandle).max_value < h.current_value then
        ({ h with is_legacy := b } : SequenceNumberHandle).min_value +
          (h.current_value - ({ h with is_legacy := b } : SequenceNumberHandle).max_value - 1)
      else h.current_value) ∧
    ((SequenceNumberHandle.new_at true (U32_MAX - 1025)).increment 3).current = 2 := by
  refine ⟨?_, ?_, by decide⟩
  · simp only [SequenceNumberHandle.increment, SequenceNumberHandle.current]
    split <;> rfl
  · simp only [SequenceNumberHandle.set_is_legacy, SequenceNumberHandle.current]
    split <;> rfl

/-- C5 witness: the theorem applied to the legacy handle at `u32::MAX - 1025`
with increment 3 and toggle target `false`. -/
theorem c5_increment_formula_witness :
    ((({ is_legacy := true, current_value := 4294966270 } :
        SequenceNumberHandle).increment 3).current =
      if ({ is_legacy := true, current_value := 4294966270 } :
            SequenceNumberHandle).max_value - 4294966270 < 3 then
        ({ is_legacy := true, current_value := 4294966270 } :
            SequenceNumberHandle).min_value +
          (3 - (({ is_legacy := true, current_value := 4294966270 } :
              SequenceNumberHandle).max_value - 4294966270) - 1)
      else 4294966270 + 3) ∧
    ((({ is_legacy := true, current_value := 4294966270 } :
        SequenceNumberHandle).set_is_legacy false).current =
      if ({ is_legacy := false, current_value := 4294966270 } :
            SequenceNumberHandle).max_value < 4294966270 then
        ({ is_legacy := false, current_value := 4294966270 } :
            SequenceNumberHandle).min_value +
          (4294966270 - ({ is_legacy := false, current_value := 4294966270 } :
              SequenceNumberHandle).max_value - 1)
      else 4294966270) ∧
    ((SequenceNumberHandle.new_at true (U32_MAX - 1025)).increment 3).current = 2 :=
  c5_increment_formula
    { is_legacy := true, current_value := 4294966270 } 3 false (by decide)

/-! ## Theorems: the §7.41 encryption-mode matrix (C1) -/

/-- C1: `legacy_encrypt_secret` selects the encryption mode given by the OPC UA
Part 4 §7.41 matrix: (None, None, token policy absent or None) is plaintext;
(None, None, P) is asymmetric under P; (P, Sign or SignAndEncrypt, absent
token policy) is asymmetric under the channel policy; (any, SignAndEncrypt,
None) is plaintext; (any, Sign, None) fails with BadSecurityPolicyRejected;
(any, Sign or SignAndEncrypt, P) is asymmetric under P; the remaining
None/Invalid channel modes fail with BadSecurityChecksFailed; and an Unknown
security policy in either position fails with BadSecurityPolicyRejected. -/
theorem c1_encryption_mode_matrix :
    (∀ (cp : SecurityPolicy) (mode : MessageSecurityMode)
      (tsp : Option SecurityPolicy),
      (cp = .None ∧ mode = .None ∧ (tsp = none ∨ tsp = some .None)) →
        legacy_encrypt_mode_select cp mode tsp = .ok .None) ∧
    (∀ (cp : SecurityPolicy) (mode : MessageSecurityMode)
      (tsp : Option SecurityPolicy) (p : SecurityPolicy),
      cp = .None → mode = .None → tsp = some p → p ≠ .None → p ≠ .Unknown →
        legacy_encrypt_mode_select cp mode tsp = .ok (.AsymmetricFor p)) ∧
    (∀ (cp : SecurityPolicy) (mode : MessageSecurityMode)
      (tsp : Option SecurityPolicy),
      cp ≠ .Unknown → (mode = .Sign ∨ mode = .SignAndEncrypt) → tsp = none →
        legacy_encrypt_mode_select cp mode tsp = .ok (.AsymmetricFor cp)) ∧
    (∀ (cp : SecurityPolicy) (mode : MessageSecurityMode)
      (tsp : Option SecurityPolicy),
      cp ≠ .Unknown → mode = .SignAndEncrypt → tsp = some .None →
        legacy_encrypt_mode_select cp mode tsp = .ok .None) ∧
    (∀ (cp : SecurityPolicy) (mode : MessageSecurityMode)
      (tsp : Option SecurityPolicy),
      cp ≠ .Unknown → mode = .Sign → tsp = some .None →
        exceptStatusOf (legacy_encrypt_mode_select cp mode tsp) =
          some .BadSecurityPolicyRejected) ∧
    (∀ (cp : SecurityPolicy) (mode : MessageSecurityMode)
      (tsp : Option SecurityPolicy) (p : SecurityPolicy),
      cp ≠ .Unknown → (mode = .Sign ∨ mode = .SignAndEncrypt) →
      tsp = some p → p ≠ .None → p ≠ .Unknown →
        legacy_encrypt_mode_select cp mode tsp = .ok (.AsymmetricFor p)) ∧
    (∀ (cp : SecurityPolicy) (mode : MessageSecurityMode)
      (tsp : Option SecurityPolicy),
      (mode = .None ∨ mode = .Invalid) → ¬(cp = .None ∧ mode = .None) →
      cp ≠ .Unknown → tsp ≠ some .Unknown →
        exceptStatusOf (legacy_encrypt_mode_select cp mode tsp) =
          some .BadSecurityChecksFailed) ∧
    (∀ (cp : SecurityPolicy) (mode : MessageSecurityMode)
      (tsp : Option SecurityPolicy),
      (cp = .Unknown ∨ tsp = some .Unknown) →
        exceptStatusOf (legacy_encrypt_mode_select cp mode tsp) =
          some .BadSecurityPolicyRejected) :=
  ⟨by decide, by decide, by decide, by decide, by decide, by decide, by decide,
   by decide⟩

/-- C1 witness: row (any, Sign, token policy None) at channel policy
Basic128Rsa15 rejects with BadSecurityPolicyRejected. -/
theorem c1_encryption_mode_matrix_witness :
    exceptStatusOf (legacy_encrypt_mode_select .Basic128Rsa15 .Sign
        (some .None)) = some .BadSecurityPolicyRejected :=
  c1_encryption_mode_matrix.2.2.2.2.1 .Basic128Rsa15 .Sign (some .None)
    (by decide) rfl rfl

/-! ## Theorems: legacy secret decryption validation (C3) -/

/-- C3 counterexample: with a ciphertext whose decryption declares a
zero-length secret (plaintext `[0,0,0,0]`, so the declared plaintext region is
4 bytes) and a 5-byte server nonce, the trailing bytes cannot match the nonce,
yet `legacy_secret_decrypt` panics on the `actual_size - nonce_len` underflow
instead of failing with `BadDecodingError` as the claim requires. -/
theorem c3_decrypt_error_counterexample :
    legacy_secret_decrypt (ByteString.fromBytes [0, 0, 0, 0]) [1, 1, 1, 1, 1]
        c3CexKey .Pkcs1 = .panicked ∧
    (legacy_secret_decrypt (ByteString.fromBytes [0, 0, 0, 0]) [1, 1, 1, 1, 1]
        c3CexKey .Pkcs1).statusOf ≠ some .BadDecodingError := by
  constructor
  · decide
  · decide

/-- When the nonce fits in the declared region, the trailing-bytes slice can be
read directly from the full decrypt buffer. -/
theorem ldbTrailing_eq_of_le (decrypted : List Nat) (srcLen psize nl : Nat)
    (h : nl ≤ psize + 4) :
    ldbTrailing decrypted srcLen psize nl =
      ((legacyDecryptBuffer decrypted srcLen).drop (psize + 4 - nl)).take nl := by
  unfold ldbTrailing ldbRegion
  rw [List.drop_take, List.take_take]
  congr 1
  omega

/-- The embedded-secret slice can be read directly from the full decrypt
buffer. -/
theorem ldbPassword_take_eq (decrypted : List Nat) (srcLen psize nl : Nat) :
    ((ldbRegion decrypted srcLen psize).drop 4).take (psize - nl) =
      ((legacyDecryptBuffer decrypted srcLen).drop 4).take (psize - nl) := by
  unfold ldbRegion
  rw [List.drop_take, List.take_take]
  congr 1
  omega

/-- C3 (amended): after RSA decryption of a non-null secret yielding plaintext
`decrypted` with declared size `plaintext_size`, `legacy_secret_decrypt`
fails with `BadDecodingError` when any padding byte after the declared
plaintext region is non-zero, and when the region is size-consistent, at least
as long as the server nonce, and its trailing bytes differ from the nonce; it
returns the embedded secret only when the nonce matches and, if padding is
present, all padding bytes are zero (padding is stripped before the nonce
check); however, when the size-consistent region is shorter than the nonce, or
when the nonce matches but the declared size is below the nonce length, the
source panics on slice indexing instead of returning an error. -/
theorem c3_decrypt_validation (key : PrivateKey) (pad : RsaPadding)
    (src decrypted server_nonce : List Nat) (plaintext_size : Nat)
    (hdec : key.private_decrypt pad src = some decrypted)
    (hplen : decrypted.length ≤ src.length)
    (hread : read_u32le (legacyDecryptBuffer decrypted src.length) =
      some plaintext_size) :
    ((plaintext_size + 4 < decrypted.length ∧
        ldbPaddingZero decrypted src.length plaintext_size = false) →
      (legacy_secret_decrypt (ByteString.fromBytes src) server_nonce key
          pad).statusOf = some .BadDecodingError) ∧
    (plaintext_size + 4 ≤ decrypted.length →
      (plaintext_size + 4 < decrypted.length →
        ldbPaddingZero decrypted src.length plaintext_size = true) →
      server_nonce.length ≤ plaintext_size + 4 →
      ldbTrailing decrypted src.length plaintext_size server_nonce.length ≠
        server_nonce →
      (legacy_secret_decrypt (ByteString.fromBytes src) server_nonce key
          pad).statusOf = some .BadDecodingError) ∧
    (∀ s, legacy_secret_decrypt (ByteString.fromBytes src) server_nonce key
        pad = .ok s →
      ldbTrailing decrypted src.length plaintext_size server_nonce.length =
        server_nonce ∧
      (plaintext_size + 4 < decrypted.length →
        ldbPaddingZero decrypted src.length plaintext_size = true) ∧
      server_nonce.length ≤ plaintext_size ∧
      s = ByteString.fromBytes
        (((ldbRegion decrypted src.length plaintext_size).drop 4).take
          (plaintext_size - server_nonce.length))) ∧
    (plaintext_size + 4 ≤ decrypted.length →
      (plaintext_size + 4 < decrypted.length →
        ldbPaddingZero decrypted src.length plaintext_size = true) →
      plaintext_size + 4 < server_nonce.length →
      legacy_secret_decrypt (ByteString.fromBytes src) server_nonce key
        pad = .panicked) ∧
    (plaintext_size + 4 ≤ decrypted.length →
      (plaintext_size + 4 < decrypted.length →
        ldbPaddingZero decrypted src.length plaintext_size = true) →
      server_nonce.length ≤ plaintext_size + 4 →
      plaintext_size < server_nonce.length →
      ldbTrailing decrypted src.length plaintext_size server_nonce.length =
        server_nonce →
      legacy_secret_decrypt (ByteString.fromBytes src) server_nonce key
        pad = .panicked) := by
  have hread' : read_u32le (decrypted ++ List.replicate
      (src.length - decrypted.length) 0) = some plaintext_size := hread
  have hZfold : ((List.drop (plaintext_size + 4)
      (decrypted ++ List.replicate (src.length - decrypted.length) 0)).all
        fun x => decide (x = 0)) =
      ldbPaddingZero decrypted src.length plaintext_size := rfl
  simp only [legacy_secret_decrypt, ByteString.fromBytes, hdec, hread', hZfold]
  by_cases hA : plaintext_size + 4 < decrypted.length
  · by_cases hZ : ldbPaddingZero decrypted src.length plaintext_size = true
    · simp only [if_pos hA, hZ, if_true]
      have hTfold : List.take server_nonce.length
          (List.drop (plaintext_size + 4 - server_nonce.length)
            (List.take (plaintext_size + 4)
              (decrypted ++ List.replicate (src.length - decrypted.length) 0))) =
          ldbTrailing decrypted src.length plaintext_size server_nonce.length := rfl
      simp only [hTfold]
      rw [if_neg (show ¬ (plaintext_size + 4 ≠ plaintext_size + 4) by omega)]
      by_cases hU : plaintext_size + 4 < server_nonce.length
      · rw [if_pos hU]
        refine ⟨?_, ?_, ?_, ?_, ?_⟩
        · rintro ⟨-, h⟩; cases h
        · intro _ _ hnl _; omega
        · intro s hs; simp at hs
        · intro _ _ _; rfl
        · intro _ _ hnl _ _; omega
      · rw [if_neg hU]
        by_cases hT : ldbTrailing decrypted src.length plaintext_size
            server_nonce.length = server_nonce
        · rw [if_neg (show ¬ (ldbTrailing decrypted src.length plaintext_size
              server_nonce.length ≠ server_nonce) from not_not_intro hT)]
          by_cases hB : plaintext_size + 4 - server_nonce.length < 4
          · rw [if_pos hB]
            refine ⟨?_, ?_, ?_, ?_, ?_⟩
            · rintro ⟨-, h⟩; cases h
            · intro _ _ _ hneq; exact absurd hT hneq
            · intro s hs; simp at hs
            · intro _ _ h; exact absurd h hU
            · intro _ _ _ _ _; rfl
          · rw [if_neg hB]
            refine ⟨?_, ?_, ?_, ?_, ?_⟩
            · rintro ⟨-, h⟩; cases h
            · intro _ _ _ hneq; exact absurd hT hneq
            · intro s hs
              simp only [RustResult.ok.injEq] at hs
              subst hs
              refine ⟨hT, fun _ => trivial, by omega, ?_⟩
              rw [show plaintext_size + 4 - server_nonce.length - 4 =
                plaintext_size - server_nonce.length by omega]
              rfl
            · intro _ _ h; exact absurd h hU
            · intro _ _ _ hlt _; omega
        · rw [if_pos hT]
          refine ⟨?_, ?_, ?_, ?_, ?_⟩
          · rintro ⟨-, h⟩; cases h
          · intro _ _ _ _; rfl
          · intro s hs; simp at hs
          · intro _ _ h; exact absurd h hU
          · intro _ _ _ _ htr; exact absurd htr hT
    · simp only [if_pos hA, if_neg hZ, if_false]
      refine ⟨?_, ?_, ?_, ?_, ?_⟩
      · intro _; rfl
      · intro _ h2 _ _; exact absurd (h2 hA) hZ
      · intro s hs; simp at hs
      · intro _ h2 _; exact absurd (h2 hA) hZ
      · intro _ h2 _ _ _; exact absurd (h2 hA) hZ
  · simp only [if_neg hA]
    by_cases hEq : plaintext_size + 4 = decrypted.length
    · rw [if_neg (show ¬ (plaintext_size + 4 ≠ decrypted.length) from
        not_not_intro hEq)]
      by_cases hU : decrypted.length < server_nonce.length
      · rw [if_pos hU]
        refine ⟨?_, ?_, ?_, ?_, ?_⟩
        · rintro ⟨h1, -⟩; exact absurd h1 hA
        · intro _ _ hnl _; omega
        · intro s hs; simp at hs
        · intro _ _ _; rfl
        · intro _ _ hnl _ _; omega
      · rw [if_neg hU]
        have hTfold : List.take server_nonce.length
            (List.drop (decrypted.length - server_nonce.length)
              (decrypted ++ List.replicate (src.length - decrypted.length) 0)) =
            ldbTrailing decrypted src.length plaintext_size server_nonce.length := by
          rw [show decrypted.length - server_nonce.length =
            plaintext_size + 4 - server_nonce.length by omega]
          rw [ldbTrailing_eq_of_le decrypted src.length plaintext_size
            server_nonce.length (by omega)]
          rfl
        simp only [hTfold]
        by_cases hT : ldbTrailing decrypted src.length plaintext_size
            server_nonce.length = server_nonce
        · rw [if_neg (show ¬ (ldbTrailing decrypted src.length plaintext_size
              server_nonce.length ≠ server_nonce) from not_not_intro hT)]
          by_cases hB : decrypted.length - server_nonce.length < 4
          · rw [if_pos hB]
            refine ⟨?_, ?_, ?_, ?_, ?_⟩
            · rintro ⟨h1, -⟩; exact absurd h1 hA
            · intro _ _ _ hneq; exact absurd hT hneq
            · intro s hs; simp at hs
            · intro _ _ h; omega
            · intro _ _ _ _ _; rfl
          · rw [if_neg hB]
            refine ⟨?_, ?_, ?_, ?_, ?_⟩
            · rintro ⟨h1, -⟩; exact absurd h1 hA
            · intro _ _ _ hneq; exact absurd hT hneq
            · intro s hs
              simp only [RustResult.ok.injEq] at hs
              subst hs
              refine ⟨hT, fun h1 => absurd h1 hA, by omega, ?_⟩
              rw [ldbPassword_take_eq decrypted src.length plaintext_size
                server_nonce.length]
              rw [show decrypted.length - server_nonce.length - 4 =
                plaintext_size - server_nonce.length by omega]
              rfl
            · intro _ _ h; omega
            · intro _ _ _ hlt _; omega
        · rw [if_pos hT]
          refine ⟨?_, ?_, ?_, ?_, ?_⟩
          · rintro ⟨h1, -⟩; exact absurd h1 hA
          · intro _ _ _ _; rfl
          · intro s hs; simp at hs
          · intro _ _ h; omega
          · intro _ _ _ _ htr; exact absurd htr hT
    · rw [if_pos (show plaintext_size + 4 ≠ decrypted.length from hEq)]
      refine ⟨?_, ?_, ?_, ?_, ?_⟩
      · rintro ⟨h1, -⟩; exact absurd h1 hA
      · intro h1 _ _ _; omega
      · intro s hs; simp at hs
      · intro h1 _ _; omega
      · intro h1 _ _ _ _; omega

/-! ## Theorems: encrypt/decrypt round trip (C2) -/

theorem u32le_length (n : Nat) : (u32le n).length = 4 := rfl

theorem read_u32le_u32le (n : Nat) (rest : List Nat) :
    read_u32le (u32le n ++ rest) = some (n % 4294967296) := by
  simp only [u32le, List.cons_append, List.nil_append, read_u32le]
  congr 1
  omega

/-- Decrypting an encryption of `[u32 length][password][nonce]` under an
inverse-pair of RSA primitives recovers the password. -/
theorem legacy_secret_decrypt_of_encrypt (cert : X509) (key : PrivateKey)
    (pad : RsaPadding) (password server_nonce : List Nat)
    (hinv : ∀ p m, key.private_decrypt p (cert.public_encrypt p m) = some m)
    (hlen : ∀ p m, m.length ≤ (cert.public_encrypt p m).length)
    (hsize : password.length + server_nonce.length < 4294967296) :
    legacy_secret_decrypt
      (ByteString.fromBytes (cert.public_encrypt pad
        (u32le (password.length + server_nonce.length) ++ password ++
          server_nonce)))
      server_nonce key pad = .ok (ByteString.fromBytes password) := by
  have hmlen : (u32le (password.length + server_nonce.length) ++ password ++
      server_nonce).length = 4 + (password.length + server_nonce.length) := by
    simp [u32le]
    omega
  have hslen := hlen pad (u32le (password.length + server_nonce.length) ++
    password ++ server_nonce)
  have hread : read_u32le ((u32le (password.length + server_nonce.length) ++
      password ++ server_nonce) ++
      List.replicate ((cert.public_encrypt pad
        (u32le (password.length + server_nonce.length) ++ password ++
          server_nonce)).length -
        (u32le (password.length + server_nonce.length) ++ password ++
          server_nonce).length) 0) = some (password.length + server_nonce.length) := by
    rw [List.append_assoc, List.append_assoc, read_u32le_u32le]
    rw [Nat.mod_eq_of_lt hsize]
  simp only [legacy_secret_decrypt, ByteString.fromBytes,
    hinv pad (u32le (password.length + server_nonce.length) ++ password ++
      server_nonce), hread]
  rw [if_neg (by omega)]
  simp only []
  rw [if_neg (by omega)]
  rw [if_neg (by omega)]
  rw [show (u32le (password.length + server_nonce.length) ++ password ++
      server_nonce).length - server_nonce.length = 4 + password.length by omega]
  rw [List.append_assoc]
  rw [List.drop_left' (show (u32le (password.length + server_nonce.length) ++
      password).length = 4 + password.length by simp [u32le]; omega)]
  rw [List.take_left' rfl]
  rw [if_neg (show ¬ (server_nonce ≠ server_nonce) from not_not_intro rfl)]
  rw [if_neg (by omega)]
  rw [show 4 + password.length - 4 = password.length by omega]
  rw [List.append_assoc]
  rw [List.drop_left'
    (show (u32le (password.length + server_nonce.length)).length = 4 from rfl)]
  rw [List.take_left' rfl]

/-- C2: for every valid identity-encryption input — RSA primitives that form an
inverse pair, certificate present, sizes within the `u32` range, and a policy
combination that `legacy_encrypt_secret` accepts — decrypting the produced
secret with `legacy_decrypt_secret` under the same server nonce and private
key returns exactly the original password, and the `encryption_algorithm`
field equals the asymmetric-encryption algorithm URI of the §7.41 row selected
(null when the row is plaintext). -/
theorem c2_identity_token_roundtrip (cert : X509) (key : PrivateKey)
    (utp : UserTokenPolicy) (cp : SecurityPolicy) (mode : MessageSecurityMode)
    (nonce password : List Nat) (tok : LegacyEncryptedSecret)
    (hinv : ∀ p m, key.private_decrypt p (cert.public_encrypt p m) = some m)
    (hlen : ∀ p m, m.length ≤ (cert.public_encrypt p m).length)
    (hsize : password.length + nonce.length < 4294967296)
    (henc : legacy_encrypt_secret cp mode utp nonce (some cert) password =
      .ok tok) :
    legacy_decrypt_secret tok nonce key = .ok (ByteString.fromBytes password) ∧
    (legacy_encrypt_mode_select cp mode (user_token_security_policy_of utp) =
        .ok .None → tok.encryption_algorithm = UAString.null) ∧
    (∀ p : SecurityPolicy,
      legacy_encrypt_mode_select cp mode (user_token_security_policy_of utp) =
        .ok (.AsymmetricFor p) →
      tok.encryption_algorithm.value = p.asymmetric_encryption_algorithm) := by
  simp only [legacy_encrypt_secret] at henc
  cases hsel : legacy_encrypt_mode_select cp mode
      (user_token_security_policy_of utp) with
  | error e =>
    rw [hsel] at henc
    simp at henc
  | ok em =>
    rw [hsel] at henc
    cases em with
    | None =>
      simp only [RustResult.ok.injEq] at henc
      subst henc
      refine ⟨rfl, fun _ => rfl, fun p hp => ?_⟩
      simp at hp
    | AsymmetricFor p =>
      cases p with
      | None => simp [SecurityPolicy.asymmetric_encryption_padding] at henc
      | Unknown => simp [SecurityPolicy.asymmetric_encryption_padding] at henc
      | Basic128Rsa15 =>
        simp only [SecurityPolicy.asymmetric_encryption_padding,
          SecurityPolicy.asymmetric_encryption_algorithm, legacy_secret_encrypt,
          RustResult.ok.injEq] at henc
        subst henc
        refine ⟨?_, ?_, ?_⟩
        · simp only [legacy_decrypt_secret]
          rw [if_neg (by decide)]
          rw [if_pos (show UAString.as_ref (UAString.fromString ENC_RSA_15) =
            ENC_RSA_15 from rfl)]
          rw [show 4 + password.length + nonce.length - 4 =
            password.length + nonce.length by omega]
          exact legacy_secret_decrypt_of_encrypt cert key .Pkcs1 password nonce
            hinv hlen hsize
        · intro h; simp at h
        · intro q hq
          simp only [Except.ok.injEq, EncryptionMode.AsymmetricFor.injEq] at hq
          subst hq
          rfl
      | Basic256Sha256 =>
        simp only [SecurityPolicy.asymmetric_encryption_padding,
          SecurityPolicy.asymmetric_encryption_algorithm, legacy_secret_encrypt,
          RustResult.ok.injEq] at henc
        subst henc
        refine ⟨?_, ?_, ?_⟩
        · simp only [legacy_decrypt_secret]
          rw [if_neg (by decide)]
          rw [if_neg (by decide)]
          rw [if_pos (show UAString.as_ref (UAString.fromString ENC_RSA_OAEP) =
            ENC_RSA_OAEP from rfl)]
          rw [show 4 + password.length + nonce.length - 4 =
            password.length + nonce.length by omega]
          exact legacy_secret_decrypt_of_encrypt cert key .OaepSha1 password nonce
            hinv hlen hsize
        · intro h; simp at h
        · intro q hq
          simp only [Except.ok.injEq, EncryptionMode.AsymmetricFor.injEq] at hq
          subst hq
          rfl
      | Aes128Sha256RsaOaep =>
        simp only [SecurityPolicy.asymmetric_encryption_padding,
          SecurityPolicy.asymmetric_encryption_algorithm, legacy_secret_encrypt,
          RustResult.ok.injEq] at henc
        subst henc
        refine ⟨?_, ?_, ?_⟩
        · simp only [legacy_decrypt_secret]
          rw [if_neg (by decide)]
          rw [if_neg (by decide)]
          rw [if_neg (by decide)]
          rw [if_pos (show UAString.as_ref (UAString.fromString ENC_RSA_OAEP_SHA256) =
            ENC_RSA_OAEP_SHA256 from rfl)]
          rw [show 4 + password.length + nonce.length - 4 =
            password.length + nonce.length by omega]
          exact legacy_secret_decrypt_of_encrypt cert key .OaepSha256 password nonce
            hinv hlen hsize
        · intro h; simp at h
        · intro q hq
          simp only [Except.ok.injEq, EncryptionMode.AsymmetricFor.injEq] at hq
          subst hq
          rfl
      | Aes256Sha256RsaPss =>
        simp only [SecurityPolicy.asymmetric_encryption_padding,
          SecurityPolicy.asymmetric_encryption_algorithm, legacy_secret_encrypt,
          RustResult.ok.injEq] at henc
        subst henc
        refine ⟨?_, ?_, ?_⟩
        · simp only [legacy_decrypt_secret]
          rw [if_neg (by decide)]
          rw [if_neg (by decide)]
          rw [if_neg (by decide)]
          rw [if_pos (show UAString.as_ref (UAString.fromString ENC_RSA_OAEP_SHA256) =
            ENC_RSA_OAEP_SHA256 from rfl)]
          rw [show 4 + password.length + nonce.length - 4 =
            password.length + nonce.length by omega]
          exact legacy_secret_decrypt_of_encrypt cert key .OaepSha256 password nonce
            hinv hlen hsize
        · intro h; simp at h
        · intro q hq
          simp only [Except.ok.injEq, EncryptionMode.AsymmetricFor.injEq] at hq
          subst hq
          rfl

/-- C3 witness: the amended theorem applied to a size-consistent 12-byte
plaintext whose trailing bytes differ from the 4-byte nonce, yielding
`BadDecodingError`. -/
theorem c3_decrypt_validation_witness :
    (legacy_secret_decrypt (ByteString.fromBytes
        [0, 0, 0, 0, 0, 0, 0, 0, 0, 0, 0, 0]) [1, 2, 3, 4] c3WitnessKey
        .Pkcs1).statusOf = some .BadDecodingError :=
  (c3_decrypt_validation c3WitnessKey .Pkcs1 [0, 0, 0, 0, 0, 0, 0, 0, 0, 0, 0, 0]
      [8, 0, 0, 0, 9, 9, 9, 9, 7, 7, 7, 7] [1, 2, 3, 4] 8 rfl (by decide)
      (by decide)).2.1
    (by decide) (fun h => absurd h (by decide)) (by decide) (by decide)

/-- C2 witness: identity-matrix row 5 — channel Basic128Rsa15, mode
SignAndEncrypt, token policy Basic256Sha256, password "abcdef123456" — has
algorithm URI rsa-oaep and decrypts back to the original password. -/
theorem c2_identity_token_roundtrip_witness :
    legacy_decrypt_secret c2WitnessToken [1, 2, 3, 4, 5, 6, 7, 8] identityKey =
      .ok (ByteString.fromBytes
        [97, 98, 99, 100, 101, 102, 49, 50, 51, 52, 53, 54]) ∧
    (legacy_encrypt_mode_select .Basic128Rsa15 .SignAndEncrypt
        (user_token_security_policy_of c2WitnessPolicy) = .ok .None →
      c2WitnessToken.encryption_algorithm = UAString.null) ∧
    (∀ p : SecurityPolicy,
      legacy_encrypt_mode_select .Basic128Rsa15 .SignAndEncrypt
        (user_token_security_policy_of c2WitnessPolicy) =
          .ok (.AsymmetricFor p) →
      c2WitnessToken.encryption_algorithm.value =
        p.asymmetric_encryption_algorithm) :=
  c2_identity_token_roundtrip identityX509 identityKey c2WitnessPolicy
    .Basic128Rsa15 .SignAndEncrypt [1, 2, 3, 4, 5, 6, 7, 8]
    [97, 98, 99, 100, 101, 102, 49, 50, 51, 52, 53, 54] c2WitnessToken
    (fun _ _ => rfl) (fun _ _ => Nat.le_refl _) (by decide) (by decide)

/-! ## Theorems: password redaction (C9) -/

/-- C9: the Debug rendering of `Password(p)` is the constant string
`Password("*****")` for every password value; in particular any two password
values render identically (two-run noninterference), so no information about
the password reaches the rendering. -/
theorem c9_password_debug_redacted :
    (∀ p q : Password, p.debug_fmt = q.debug_fmt) ∧
    (∀ p : Password, p.debug_fmt = "Password(\"*****\")") :=
  ⟨fun _ _ => rfl, fun _ => rfl⟩

/-! ## Theorems: server identity-token decoding (C10) -/

/-- C10: the server-side `IdentityToken::new` is total and never errors: a null
extension object decodes to `Anonymous` with policy id "anonymous"; each of
the four known token bodies maps to its variant; and any other body yields
`Invalid` carrying the original object unchanged. -/
theorem c10_identity_token_new_total :
    IdentityToken.new .null =
      .Anonymous { policy_id := UAString.fromString POLICY_ID_ANONYMOUS } ∧
    (∀ t, IdentityToken.new (.anonymous t) = .Anonymous t) ∧
    (∀ t, IdentityToken.new (.userName t) = .UserName t) ∧
    (∀ t, IdentityToken.new (.x509 t) = .X509 t) ∧
    (∀ t, IdentityToken.new (.issued t) = .IssuedToken t) ∧
    (∀ r, IdentityToken.new (.other r) = .Invalid (.other r)) :=
  ⟨rfl, fun _ => rfl, fun _ => rfl, fun _ => rfl, fun _ => rfl, fun _ => rfl⟩

/-! ## Theorems: subscription map consistency (C6) -/

theorem hmap_get_insert_self {β : Type} (m : HMap β) (k : Nat) (v : β) :
    (m.insert k v).get k = some v := by
  simp [HMap.get, HMap.insert]

theorem hmap_get_insert_ne {β : Type} (m : HMap β) (k : Nat) (v : β) (q : Nat)
    (h : q ≠ k) : (m.insert k v).get q = m.get q := by
  simp [HMap.get, HMap.insert, h]

theorem hmap_get_remove_self {β : Type} (m : HMap β) (k : Nat) :
    (m.remove k).get k = none := by
  simp [HMap.get, HMap.remove]

theorem hmap_get_remove_ne {β : Type} (m : HMap β) (k q : Nat) (h : q ≠ k) :
    (m.remove k).get q = m.get q := by
  simp [HMap.get, HMap.remove, h]

theorem hmap_get_remove_none {β : Type} (m : HMap β) (k q : Nat)
    (h : m.get q = none) : (m.remove k).get q = none := by
  by_cases hq : q = k
  · subst hq; exact hmap_get_remove_self m q
  · rw [hmap_get_remove_ne m k q hq]; exact h

/-- Inserting a monitored item with a fresh id and a fresh client handle
preserves the subscription invariant. -/
theorem subscription_invariant_insert (s : Subscription) (item : MonitoredItem)
    (hInv : SubscriptionInvariant s)
    (hid : s.monitored_items.get item.id = none)
    (hh : s.client_handles.get item.client_handle = none) :
    SubscriptionInvariant (s.insert_existing_monitored_item item) := by
  intro h id
  show (s.client_handles.insert item.client_handle item.id).get h = some id ↔
    ∃ it, (s.monitored_items.insert item.id item).get id = some it ∧
      it.client_handle = h
  by_cases hch : h = item.client_handle
  · subst hch
    rw [hmap_get_insert_self]
    constructor
    · intro h1
      obtain rfl := Option.some.inj h1
      exact ⟨item, by rw [hmap_get_insert_self], rfl⟩
    · rintro ⟨it, hit, hith⟩
      by_cases hidq : id = item.id
      · subst hidq; rfl
      · rw [hmap_get_insert_ne _ _ _ _ hidq] at hit
        have h2 := (hInv item.client_handle id).mpr ⟨it, hit, hith⟩
        rw [hh] at h2
        exact Option.noConfusion h2
  · rw [hmap_get_insert_ne _ _ _ _ hch]
    constructor
    · intro h1
      obtain ⟨it, hit, hith⟩ := (hInv h id).mp h1
      by_cases hidq : id = item.id
      · subst hidq
        rw [hid] at hit
        exact Option.noConfusion hit
      · exact ⟨it, by rw [hmap_get_insert_ne _ _ _ _ hidq]; exact hit, hith⟩
    · rintro ⟨it, hit, hith⟩
      by_cases hidq : id = item.id
      · subst hidq
        rw [hmap_get_insert_self] at hit
        obtain rfl := Option.some.inj hit
        exact absurd hith.symm hch
      · rw [hmap_get_insert_ne _ _ _ _ hidq] at hit
        exact (hInv h id).mpr ⟨it, hit, hith⟩

/-- Modifying monitored items never changes the client-handle map. -/
theorem modify_many_client_handles (items : List ModifyMonitoredItem) :
    ∀ s : Subscription,
      (s.modify_monitored_items items).client_handles = s.client_handles := by
  induction items with
  | nil => intro s; rfl
  | cons i rest ih =>
    intro s
    show ((s.modify_one i).modify_monitored_items rest).client_handles = _
    rw [ih]
    unfold Subscription.modify_one
    cases hm : s.monitored_items.get i.id <;> rfl

/-- A single modify step preserves the invariant (it never changes a stored
client handle). -/
theorem subscription_invariant_modify_one (s : Subscription)
    (i : ModifyMonitoredItem) (hInv : SubscriptionInvariant s) :
    SubscriptionInvariant (s.modify_one i) := by
  unfold Subscription.modify_one
  cases hm : s.monitored_items.get i.id with
  | none => exact hInv
  | some mi =>
    intro h id
    show s.client_handles.get h = some id ↔ ∃ it,
      (s.monitored_items.insert i.id
        { mi with
          sampling_interval := i.sampling_interval,
          queue_size := i.queue_size }).get id = some it ∧ it.client_handle = h
    by_cases hidq : id = i.id
    · subst hidq
      rw [hmap_get_insert_self]
      constructor
      · intro h1
        obtain ⟨it, hit, hith⟩ := (hInv h i.id).mp h1
        rw [hm] at hit
        obtain rfl := Option.some.inj hit
        exact ⟨_, rfl, hith⟩
      · rintro ⟨it, hit, hith⟩
        obtain rfl := Option.some.inj hit
        exact (hInv h i.id).mpr ⟨mi, hm, hith⟩
    · rw [hmap_get_insert_ne _ _ _ _ hidq]
      exact hInv h id

/-- A single delete step preserves the invariant. -/
theorem subscription_invariant_delete_one (s : Subscription) (did : Nat)
    (hInv : SubscriptionInvariant s) :
    SubscriptionInvariant (s.delete_one did) := by
  unfold Subscription.delete_one
  cases hm : s.monitored_items.get did with
  | none => exact hInv
  | some mi =>
    intro h id
    show (s.client_handles.remove mi.client_handle).get h = some id ↔ ∃ it,
      (s.monitored_items.remove did).get id = some it ∧ it.client_handle = h
    by_cases hch : h = mi.client_handle
    · subst hch
      rw [hmap_get_remove_self]
      constructor
      · intro h1; exact Option.noConfusion h1
      · rintro ⟨it, hit, hith⟩
        by_cases hidq : id = did
        · subst hidq
          rw [hmap_get_remove_self] at hit
          exact Option.noConfusion hit
        · rw [hmap_get_remove_ne _ _ _ hidq] at hit
          have e1 := (hInv mi.client_handle id).mpr ⟨it, hit, hith⟩
          have e2 := (hInv mi.client_handle did).mpr ⟨mi, hm, rfl⟩
          rw [e2] at e1
          exact absurd (Option.some.inj e1).symm hidq
    · rw [hmap_get_remove_ne _ _ _ hch]
      constructor
      · intro h1
        obtain ⟨it, hit, hith⟩ := (hInv h id).mp h1
        by_cases hidq : id = did
        · subst hidq
          rw [hm] at hit
          obtain rfl := Option.some.inj hit
          exact absurd hith.symm hch
        · exact ⟨it, by rw [hmap_get_remove_ne _ _ _ hidq]; exact hit, hith⟩
      · rintro ⟨it, hit, hith⟩
        by_cases hidq : id = did
        · subst hidq
          rw [hmap_get_remove_self] at hit
          exact Option.noConfusion hit
        · rw [hmap_get_remove_ne _ _ _ hidq] at hit
          exact (hInv h id).mpr ⟨it, hit, hith⟩

/-- Modify steps preserve the invariant. -/
theorem subscription_invariant_modify_many (items : List ModifyMonitoredItem) :
    ∀ s : Subscription, SubscriptionInvariant s →
      SubscriptionInvariant (s.modify_monitored_items items) := by
  induction items with
  | nil => intro s hInv; exact hInv
  | cons i rest ih =>
    intro s hInv
    exact ih _ (subscription_invariant_modify_one s i hInv)

/-- Delete steps preserve the invariant. -/
theorem subscription_invariant_delete_many (ids : List Nat) :
    ∀ s : Subscription, SubscriptionInvariant s →
      SubscriptionInvariant (s.delete_monitored_items ids) := by
  induction ids with
  | nil => intro s hInv; exact hInv
  | cons i rest ih =>
    intro s hInv
    exact ih _ (subscription_invariant_delete_one s i hInv)

/-- Inserting many fresh items preserves the invariant. -/
theorem subscription_invariant_insert_many
    (items : List CreateMonitoredItem) :
    ∀ s : Subscription, SubscriptionInvariant s →
      (items.map (fun i => i.id)).Nodup →
      (items.map (fun i => i.client_handle)).Nodup →
      (∀ id ∈ items.map (fun i => i.id), s.monitored_items.get id = none) →
      (∀ h ∈ items.map (fun i => i.client_handle),
        s.client_handles.get h = none) →
      SubscriptionInvariant (s.insert_monitored_items items) := by
  induction items with
  | nil => intro s hInv _ _ _ _; exact hInv
  | cons i rest ih =>
    intro s hInv hidsN hhandN hidnone hhnone
    simp only [List.map_cons, List.nodup_cons] at hidsN hhandN
    simp only [List.map_cons, List.mem_cons] at hidnone hhnone
    show SubscriptionInvariant
      ((s.insert_existing_monitored_item i.toMonitoredItem).insert_monitored_items
        rest)
    refine ih _ (subscription_invariant_insert s i.toMonitoredItem hInv
      (hidnone _ (Or.inl rfl)) (hhnone _ (Or.inl rfl))) hidsN.2 hhandN.2 ?_ ?_
    · intro id hidmem
      have hne : id ≠ i.toMonitoredItem.id := by
        intro hc
        have hc' : id = i.id := hc
        exact hidsN.1 (hc' ▸ hidmem)
      show ((s.monitored_items.insert i.toMonitoredItem.id
        i.toMonitoredItem).get id) = none
      rw [hmap_get_insert_ne _ _ _ _ hne]
      exact hidnone _ (Or.inr hidmem)
    · intro h hmem
      have hne : h ≠ i.toMonitoredItem.client_handle := by
        intro hc
        have hc' : h = i.client_handle := hc
        exact hhandN.1 (hc' ▸ hmem)
      show ((s.client_handles.insert i.toMonitoredItem.client_handle
        i.toMonitoredItem.id).get h) = none
      rw [hmap_get_insert_ne _ _ _ _ hne]
      exact hhnone _ (Or.inr hmem)

/-- Inserting items does not create entries under ids that are neither present
nor inserted. -/
theorem get_none_insert_many (items : List CreateMonitoredItem) :
    ∀ (s : Subscription) (id : Nat), s.monitored_items.get id = none →
      id ∉ items.map (fun i => i.id) →
      (s.insert_monitored_items items).monitored_items.get id = none := by
  induction items with
  | nil => intro s id hid _; exact hid
  | cons i rest ih =>
    intro s id hid hnot
    simp only [List.map_cons, List.mem_cons] at hnot
    push_neg at hnot
    show ((s.insert_existing_monitored_item
      i.toMonitoredItem).insert_monitored_items rest).monitored_items.get id =
      none
    refine ih _ id ?_ hnot.2
    show (s.monitored_items.insert i.id i.toMonitoredItem).get id = none
    rw [hmap_get_insert_ne _ _ _ _ hnot.1]
    exact hid

/-- Inserting items does not create entries under client handles that are
neither present nor inserted. -/
theorem handles_none_insert_many (items : List CreateMonitoredItem) :
    ∀ (s : Subscription) (h : Nat), s.client_handles.get h = none →
      h ∉ items.map (fun i => i.client_handle) →
      (s.insert_monitored_items items).client_handles.get h = none := by
  induction items with
  | nil => intro s h hh _; exact hh
  | cons i rest ih =>
    intro s h hh hnot
    simp only [List.map_cons, List.mem_cons] at hnot
    push_neg at hnot
    show ((s.insert_existing_monitored_item
      i.toMonitoredItem).insert_monitored_items rest).client_handles.get h =
      none
    refine ih _ h ?_ hnot.2
    show (s.client_handles.insert i.client_handle i.toMonitoredItem.id).get h =
      none
    rw [hmap_get_insert_ne _ _ _ _ hnot.1]
    exact hh

/-- Modifying items never turns an absent monitored-item entry present. -/
theorem get_none_modify_many (items : List ModifyMonitoredItem) :
    ∀ (s : Subscription) (id : Nat), s.monitored_items.get id = none →
      (s.modify_monitored_items items).monitored_items.get id = none := by
  induction items with
  | nil => intro s id hid; exact hid
  | cons i rest ih =>
    intro s id hid
    show ((s.modify_one i).modify_monitored_items rest).monitored_items.get id =
      none
    refine ih _ id ?_
    unfold Subscription.modify_one
    cases hm : s.monitored_items.get i.id with
    | none => exact hid
    | some mi =>
      have hne : id ≠ i.id := by
        intro hc
        rw [hc, hm] at hid
        exact Option.noConfusion hid
      show (s.monitored_items.insert i.id _).get id = none
      rw [hmap_get_insert_ne _ _ _ _ hne]
      exact hid

/-- Deleting items never turns an absent monitored-item entry present. -/
theorem get_none_delete_many (ids : List Nat) :
    ∀ (s : Subscription) (id : Nat), s.monitored_items.get id = none →
      (s.delete_monitored_items ids).monitored_items.get id = none := by
  induction ids with
  | nil => intro s id hid; exact hid
  | cons i rest ih =>
    intro s id hid
    show ((s.delete_one i).delete_monitored_items rest).monitored_items.get id =
      none
    refine ih _ id ?_
    unfold Subscription.delete_one
    cases hm : s.monitored_items.get i with
    | none => exact hid
    | some mi =>
      show (s.monitored_items.remove i).get id = none
      exact hmap_get_remove_none _ _ _ hid

/-- Deleting items never turns an absent client-handle entry present. -/
theorem handles_none_delete_many (ids : List Nat) :
    ∀ (s : Subscription) (h : Nat), s.client_handles.get h = none →
      (s.delete_monitored_items ids).client_handles.get h = none := by
  induction ids with
  | nil => intro s h hh; exact hh
  | cons i rest ih =>
    intro s h hh
    show ((s.delete_one i).delete_monitored_items rest).client_handles.get h =
      none
    refine ih _ h ?_
    unfold Subscription.delete_one
    cases hm : s.monitored_items.get i with
    | none => exact hh
    | some mi =>
      show (s.client_handles.remove mi.client_handle).get h = none
      exact hmap_get_remove_none _ _ _ hh

/-- Fresh ids stay absent across any single operation that does not insert
them. -/
theorem get_none_applyOp (op : SubscriptionOp) (s : Subscription) (id : Nat)
    (hid : s.monitored_items.get id = none) (hnot : id ∉ opInsertedIds op) :
    (s.applyOp op).monitored_items.get id = none := by
  cases op with
  | insertExisting item =>
    have hne : id ≠ item.id := by
      intro hc
      exact hnot (by simp [opInsertedIds, hc])
    show (s.monitored_items.insert item.id item).get id = none
    rw [hmap_get_insert_ne _ _ _ _ hne]
    exact hid
  | create items => exact get_none_insert_many items s id hid hnot
  | modify items => exact get_none_modify_many items s id hid
  | delete ids => exact get_none_delete_many ids s id hid

/-- Fresh client handles stay absent across any single operation that does not
insert them. -/
theorem handles_none_applyOp (op : SubscriptionOp) (s : Subscription) (h : Nat)
    (hh : s.client_handles.get h = none) (hnot : h ∉ opInsertedHandles op) :
    (s.applyOp op).client_handles.get h = none := by
  cases op with
  | insertExisting item =>
    have hne : h ≠ item.client_handle := by
      intro hc
      exact hnot (by simp [opInsertedHandles, hc])
    show (s.client_handles.insert item.client_handle item.id).get h = none
    rw [hmap_get_insert_ne _ _ _ _ hne]
    exact hh
  | create items => exact handles_none_insert_many items s h hh hnot
  | modify items =>
    show (s.modify_monitored_items items).client_handles.get h = none
    rw [modify_many_client_handles items s]
    exact hh
  | delete ids => exact handles_none_delete_many ids s h hh

/-- Any operation preserves the invariant, provided the ids and handles it
inserts are absent. -/
theorem subscription_invariant_applyOp (op : SubscriptionOp) (s : Subscription)
    (hInv : SubscriptionInvariant s)
    (hN1 : (opInsertedIds op).Nodup) (hN2 : (opInsertedHandles op).Nodup)
    (hnone1 : ∀ id ∈ opInsertedIds op, s.monitored_items.get id = none)
    (hnone2 : ∀ h ∈ opInsertedHandles op, s.client_handles.get h = none) :
    SubscriptionInvariant (s.applyOp op) := by
  cases op with
  | insertExisting item =>
    exact subscription_invariant_insert s item hInv
      (hnone1 _ (by simp [opInsertedIds])) (hnone2 _ (by simp [opInsertedHandles]))
  | create items =>
    exact subscription_invariant_insert_many items s hInv hN1 hN2 hnone1 hnone2
  | modify items => exact subscription_invariant_modify_many items s hInv
  | delete ids => exact subscription_invariant_delete_many ids s hInv

/-- The core induction: any operation sequence whose inserted ids and handles
are pairwise distinct and absent from the starting maps preserves the
invariant. -/
theorem subscription_invariant_applyOps (ops : List SubscriptionOp) :
    ∀ s : Subscription, SubscriptionInvariant s →
      (insertedIds ops).Nodup → (insertedHandles ops).Nodup →
      (∀ id ∈ insertedIds ops, s.monitored_items.get id = none) →
      (∀ h ∈ insertedHandles ops, s.client_handles.get h = none) →
      SubscriptionInvariant (s.applyOps ops) := by
  induction ops with
  | nil => intro s hInv _ _ _ _; exact hInv
  | cons op rest ih =>
    intro s hInv hN1 hN2 hnone1 hnone2
    have hsplit1 : insertedIds (op :: rest) =
      opInsertedIds op ++ insertedIds rest := rfl
    have hsplit2 : insertedHandles (op :: rest) =
      opInsertedHandles op ++ insertedHandles rest := rfl
    rw [hsplit1] at hN1 hnone1
    rw [hsplit2] at hN2 hnone2
    rw [List.nodup_append] at hN1 hN2
    show SubscriptionInvariant ((s.applyOp op).applyOps rest)
    refine ih _ (subscription_invariant_applyOp op s hInv hN1.1 hN2.1
      (fun id hm => hnone1 id (List.mem_append_left _ hm))
      (fun h hm => hnone2 h (List.mem_append_left _ hm))) hN1.2.1 hN2.2.1 ?_ ?_
    · intro id hm
      exact get_none_applyOp op s id (hnone1 id (List.mem_append_right _ hm))
        (fun hmem1 => hN1.2.2 hmem1 hm)
    · intro h hm
      exact handles_none_applyOp op s h (hnone2 h (List.mem_append_right _ hm))
        (fun hmem1 => hN2.2.2 hmem1 hm)

/-- C6 counterexample: re-inserting monitored-item id 1 under a different
client handle (5 then 6) satisfies the claim's hypothesis — all inserted
client handles are distinct — yet leaves the stale entry `5 → 1` in
`client_handles` while `monitored_items[1].client_handle = 6`, violating the
claimed equivalence. -/
theorem c6_map_consistency_counterexample :
    (insertedHandles [SubscriptionOp.insertExisting (c6Item 1 5),
      SubscriptionOp.insertExisting (c6Item 1 6)]).Nodup ∧
    ¬ SubscriptionInvariant (c6Base.applyOps
      [SubscriptionOp.insertExisting (c6Item 1 5),
       SubscriptionOp.insertExisting (c6Item 1 6)]) := by
  constructor
  · simp [insertedHandles, opInsertedHandles, c6Item, MonitoredItem.new]
  · intro hInv
    have h1 : (c6Base.applyOps
        [SubscriptionOp.insertExisting (c6Item 1 5),
         SubscriptionOp.insertExisting (c6Item 1 6)]).client_handles.get 5 =
        some 1 := rfl
    obtain ⟨it, hit, hith⟩ := (hInv 5 1).mp h1
    have h2 : (c6Base.applyOps
        [SubscriptionOp.insertExisting (c6Item 1 5),
         SubscriptionOp.insertExisting (c6Item 1 6)]).monitored_items.get 1 =
        some (c6Item 1 6) := rfl
    rw [h2] at hit
    obtain rfl := Option.some.inj hit
    exact absurd hith (by decide)

/-- C6 (amended): for any sequence of insert/create, modify and delete
monitored-item operations applied to a freshly created subscription, if the
inserted client handles are pairwise distinct and the inserted monitored-item
ids are pairwise distinct, the two maps remain mutually consistent:
`client_handles` maps `h` to `id` exactly when `monitored_items` holds an item
under `id` whose client handle is `h`. (The original claim fails when an id
is re-inserted under a new handle, as the counterexample shows.) -/
theorem c6_map_consistency (ops : List SubscriptionOp)
    (sid pint lc mkac mnpp prio : Nat) (pe : Bool)
    (hids : (insertedIds ops).Nodup)
    (hhandles : (insertedHandles ops).Nodup) :
    SubscriptionInvariant
      ((Subscription.new sid pint lc mkac mnpp prio pe).applyOps ops) := by
  refine subscription_invariant_applyOps ops _ ?_ hids hhandles
    (fun _ _ => rfl) (fun _ _ => rfl)
  intro h id
  constructor
  · intro h1; exact Option.noConfusion h1
  · rintro ⟨it, hit, -⟩; exact Option.noConfusion hit

/-- C6 witness: the amended theorem applied to insert ids 1 and 2 under
handles 5 and 6 followed by deleting id 1. -/
theorem c6_map_consistency_witness :
    SubscriptionInvariant ((Subscription.new 7 0 10 3 100 0 true).applyOps
      [SubscriptionOp.insertExisting (c6Item 1 5),
       SubscriptionOp.insertExisting (c6Item 2 6),
       SubscriptionOp.delete [1]]) :=
  c6_map_consistency
    [SubscriptionOp.insertExisting (c6Item 1 5),
     SubscriptionOp.insertExisting (c6Item 2 6),
     SubscriptionOp.delete [1]] 7 0 10 3 100 0 true
    (by simp [insertedIds, opInsertedIds, c6Item, MonitoredItem.new])
    (by simp [insertedHandles, opInsertedHandles, c6Item, MonitoredItem.new])

/-! ## Theorems: notification dispatch (C8) -/

theorem dispatch_data_foldl (m : MonitoredItemMap) :
    ∀ (l : List MonitoredItemNotification) (acc : List CallbackEvent),
      l.foldl (dispatch_data_step m) acc =
        acc ++ l.map (fun notif =>
          match m.get notif.client_handle with
          | some item => CallbackEvent.dataValue notif.value item
          | none => CallbackEvent.warned notif.client_handle) := by
  intro l
  induction l with
  | nil => intro acc; simp
  | cons x xs ih =>
    intro acc
    rw [List.foldl_cons, ih]
    unfold dispatch_data_step
    cases hg : m.get x.client_handle <;> simp [hg]

theorem dispatch_events_foldl (m : MonitoredItemMap) :
    ∀ (l : List EventFieldList) (acc : List CallbackEvent),
      l.foldl (dispatch_event_step m) acc =
        acc ++ l.filterMap (fun notif =>
          (m.get notif.client_handle).map
            (fun item => CallbackEvent.event notif.event_fields item)) := by
  intro l
  induction l with
  | nil => intro acc; simp
  | cons x xs ih =>
    intro acc
    rw [List.foldl_cons, ih]
    unfold dispatch_event_step
    cases hg : m.get x.client_handle <;> simp [hg, List.filterMap_cons]

theorem dispatch_payload_foldl (m : MonitoredItemMap) :
    ∀ (l : List NotificationData) (acc : List CallbackEvent),
      l.foldl (dispatch_payload m) acc =
        acc ++ (l.map (notificationDispatchSpec m)).flatten := by
  intro l
  induction l with
  | nil => intro acc; simp
  | cons obj rest ih =>
    intro acc
    rw [List.foldl_cons, ih]
    cases obj with
    | dataChange v =>
      show (v.monitored_items.getD []).foldl (dispatch_data_step m) acc ++ _ = _
      rw [dispatch_data_foldl]
      simp [notificationDispatchSpec]
    | events v =>
      show (v.events.getD []).foldl (dispatch_event_step m) acc ++ _ = _
      rw [dispatch_events_foldl]
      simp [notificationDispatchSpec]
    | statusChange v => simp [dispatch_payload, notificationDispatchSpec]
    | other r => simp [dispatch_payload, notificationDispatchSpec]

/-- C8: for every notification message dispatched to a subscription callback:
a message with no notification data invokes nothing, and otherwise the trace
of invocations is exactly, payload by payload, the claim's description —
`on_data_value(value, item)` once per data-change notification whose client
handle resolves, a warning for an unknown handle; `on_event(fields, item)` for
each event notification with a known handle; and
`on_subscription_status_change` for each status change. -/
theorem c8_notification_dispatch (m : MonitoredItemMap)
    (msg : NotificationMessage) :
    (msg.notification_data = none → on_subscription_notification m msg = []) ∧
    (∀ ds, msg.notification_data = some ds →
      on_subscription_notification m msg =
        (ds.map (notificationDispatchSpec m)).flatten) := by
  constructor
  · intro h
    simp [on_subscription_notification, h]
  · intro ds hds
    simp only [on_subscription_notification, hds]
    rw [dispatch_payload_foldl]
    simp

/-- Witness for C8: on the concrete message `c8Msg` against `c8Map` the
dispatcher emits exactly one `on_data_value` for the known handle, one warning
for the unknown handle, one `on_event` for the known handle (the unknown event
handle is silently dropped), and one status change; the unrecognised payload
contributes nothing. -/
theorem c8_notification_dispatch_witness :
    on_subscription_notification c8Map c8Msg =
      [CallbackEvent.dataValue ⟨42⟩ c8Item, CallbackEvent.warned 9,
       CallbackEvent.event (some [⟨11⟩]) c8Item, CallbackEvent.statusChange ⟨1⟩] :=
  ((c8_notification_dispatch c8Map c8Msg).2 _ rfl).trans (by decide)

/-! ## Theorems: publish limits (C7) -/

theorem rne_exact (n d : Nat) (hd : 0 < d) (hdvd : d ∣ n) : rne n d = n / d := by
  obtain ⟨k, rfl⟩ := hdvd
  have h0 : d * k % d = 0 := Nat.mul_mod_right d k
  unfold rne
  dsimp only
  rw [h0]
  simp [hd]

theorem rne_le (n d : Nat) (hd : 0 < d) : 2 * d * rne n d ≤ 2 * n + d := by
  have hdm : d * (n / d) + n % d = n := Nat.div_add_mod n d
  have hlt : n % d < d := Nat.mod_lt n hd
  unfold rne
  dsimp only
  generalize n / d = q at hdm ⊢
  generalize n % d = r at hdm hlt ⊢
  split_ifs with h1 h2 h3 <;> nlinarith [hdm, hlt]

theorem rne_ge (n d : Nat) (hd : 0 < d) : 2 * n ≤ 2 * d * rne n d + d := by
  have hdm : d * (n / d) + n % d = n := Nat.div_add_mod n d
  have hlt : n % d < d := Nat.mod_lt n hd
  unfold rne
  dsimp only
  generalize n / d = q at hdm ⊢
  generalize n % d = r at hdm hlt ⊢
  split_ifs with h1 h2 h3 <;> nlinarith [hdm, hlt]

theorem lg2_spec : ∀ (fuel n : Nat), 1 ≤ n → n < 2 ^ fuel →
    2 ^ lg2 fuel n ≤ n ∧ n < 2 ^ (lg2 fuel n + 1) := by
  intro fuel
  induction fuel with
  | zero =>
    intro n h1 h2
    simp at h2
    omega
  | succ f ih =>
    intro n h1 h2
    unfold lg2
    by_cases hn : n < 2
    · rw [if_pos hn]
      simp
      omega
    · rw [if_neg hn]
      have hh1 : 1 ≤ n / 2 := by omega
      have hh2 : n / 2 < 2 ^ f := by
        rw [pow_succ] at h2
        omega
      obtain ⟨ih1, ih2⟩ := ih (n / 2) hh1 hh2
      constructor
      · rw [pow_succ]
        have h3 : 2 ^ lg2 f (n / 2) * 2 ≤ n / 2 * 2 :=
          Nat.mul_le_mul_right 2 ih1
        omega
      · rw [pow_succ]
        have h3 : n / 2 * 2 < 2 ^ (lg2 f (n / 2) + 1) * 2 :=
          (Nat.mul_lt_mul_right (by omega)).mpr ih2
        omega

theorem toF32_of_le (n : Nat) (h : n ≤ 2 ^ 24) : toF32 n = n := by
  unfold toF32
  rw [if_pos h]

/-- For millisecond counts up to `2 ^ 24` both operands and the quotient are
exactly representable in `f32`, so the float ceiling-divide agrees with the
exact natural-number ceiling. -/
theorem ceilF32Div_exact (a b : Nat) (ha : a ≤ 2 ^ 24) (hb1 : 1 ≤ b)
    (hb2 : b ≤ 2 ^ 24) : ceilF32Div a b = ceilNat a b := by
  by_cases ha0 : a = 0
  · subst ha0
    unfold ceilF32Div ceilNat
    rw [if_neg (by omega), if_pos rfl]
    rw [Nat.div_eq_of_lt (by omega)]
  · by_cases hcorner : a = 2 ^ 24 ∧ b = 1
    · obtain ⟨rfl, rfl⟩ := hcorner
      decide
    · have hb0 : 0 < b := hb1
      unfold ceilF32Div
      rw [if_neg (by omega), if_neg ha0]
      dsimp only
      rw [toF32_of_le a ha, toF32_of_le b hb2]
      have hDge : 2 ^ 40 ≤ a * 2 ^ 64 / b := by
        apply (Nat.le_div_iff_mul_le hb0).mpr
        calc 2 ^ 40 * b ≤ 2 ^ 40 * 2 ^ 24 := Nat.mul_le_mul_left _ hb2
          _ = 2 ^ 64 := by norm_num
          _ ≤ a * 2 ^ 64 := Nat.le_mul_of_pos_left _ (by omega)
      have hDlt : a * 2 ^ 64 / b < 2 ^ 256 := by
        apply lt_of_le_of_lt (Nat.div_le_self _ _)
        calc a * 2 ^ 64 ≤ 2 ^ 24 * 2 ^ 64 := Nat.mul_le_mul_right _ ha
          _ < 2 ^ 256 := by norm_num
      obtain ⟨hE1, hE2⟩ :=
        lg2_spec 256 (a * 2 ^ 64 / b) (le_trans (by norm_num) hDge) hDlt
      set E := lg2 256 (a * 2 ^ 64 / b) with hE
      have hstar1 : b * 2 ^ E ≤ a * 2 ^ 64 := by
        have h := (Nat.le_div_iff_mul_le hb0).mp hE1
        rw [mul_comm]
        exact h
      have hstar2 : a * 2 ^ 64 < b * 2 ^ (E + 1) := by
        have h := (Nat.div_lt_iff_lt_mul hb0).mp hE2
        rw [mul_comm b (2 ^ (E + 1))]
        exact h
      have haub : a * 2 ^ 64 ≤ 2 ^ 88 := by
        calc a * 2 ^ 64 ≤ 2 ^ 24 * 2 ^ 64 := Nat.mul_le_mul_right _ ha
          _ = 2 ^ 88 := by norm_num
      have hE88sub : E ≤ 87 := by
        by_contra hc
        push_neg at hc
        have h8 : (2 : Nat) ^ 88 ≤ 2 ^ E := Nat.pow_le_pow_right (by omega) (by omega)
        have h9 : b * 2 ^ 88 ≤ b * 2 ^ E := Nat.mul_le_mul_left b h8
        have h10 : b * 2 ^ 88 ≤ 1 * 2 ^ 88 := by
          rw [one_mul]
          exact le_trans h9 (le_trans hstar1 haub)
        have hb1eq : b = 1 :=
          le_antisymm (Nat.le_of_mul_le_mul_right h10 (by positivity)) hb1
        have h12 : 2 ^ 24 * 2 ^ 64 ≤ a * 2 ^ 64 := by
          calc (2 : Nat) ^ 24 * 2 ^ 64 = 2 ^ 88 := by norm_num
            _ ≤ 2 ^ E := h8
            _ = 1 * 2 ^ E := (one_mul _).symm
            _ = b * 2 ^ E := by rw [hb1eq]
            _ ≤ a * 2 ^ 64 := hstar1
        have ha24 : a = 2 ^ 24 :=
          le_antisymm ha (Nat.le_of_mul_le_mul_right h12 (by positivity))
        exact hcorner ⟨ha24, hb1eq⟩
      rw [if_neg (by omega)]
      set P := 2 ^ (87 - E) with hP
      have hPpos : 0 < P := by
        rw [hP]
        exact pow_pos (by omega) _
      set m := rne (a * P) b with hm
      set K := ceilNat a b with hK
      have hKdef : K = (a + b - 1) / b := hK
      have hK1 : a ≤ b * K := by
        have hdm := Nat.div_add_mod (a + b - 1) b
        have hmod := Nat.mod_lt (a + b - 1) hb0
        rw [hKdef]
        generalize b * ((a + b - 1) / b) = t at hdm ⊢
        omega
      have hK2 : b * K < a + b := by
        have hdm := Nat.div_add_mod (a + b - 1) b
        have hmod := Nat.mod_lt (a + b - 1) hb0
        rw [hKdef]
        generalize b * ((a + b - 1) / b) = t at hdm ⊢
        omega
      have hbounds : m ≤ K * P ∧ K * P < m + P := by
        by_cases hdvd : b ∣ a * P
        · have hmup : m * b = a * P := by
            rw [hm, rne_exact (a * P) b hb0 hdvd]
            exact Nat.div_mul_cancel hdvd
          constructor
          · have h1 : m * b ≤ K * P * b := by
              calc m * b = a * P := hmup
                _ ≤ b * K * P := Nat.mul_le_mul_right P hK1
                _ = K * P * b := by ring
            exact Nat.le_of_mul_le_mul_right h1 hb0
          · have h2 : b * K * P < (a + b) * P :=
              (Nat.mul_lt_mul_right hPpos).mpr hK2
            have h3 : K * P * b < (m + P) * b := by
              calc K * P * b = b * K * P := by ring
                _ < (a + b) * P := h2
                _ = a * P + b * P := by ring
                _ = m * b + b * P := by rw [hmup]
                _ = (m + P) * b := by ring
            exact Nat.lt_of_mul_lt_mul_right h3
        · have hlt_bK : a < b * K := by
            rcases Nat.lt_or_ge a (b * K) with h | h
            · exact h
            · exfalso
              have heq : a = b * K := le_antisymm hK1 h
              exact hdvd (Dvd.dvd.mul_right ⟨K, heq⟩ P)
          have hblt : b < 2 * P := by
            by_contra hcb
            push_neg at hcb
            have hPe : 2 * P * 2 ^ E = 2 ^ 88 := by
              rw [hP, ← pow_succ', ← pow_add]
              congr 1
              omega
            have h7 : 2 ^ 88 ≤ b * 2 ^ E := by
              calc (2 : Nat) ^ 88 = 2 * P * 2 ^ E := hPe.symm
                _ ≤ b * 2 ^ E := Nat.mul_le_mul_right _ hcb
            have h8 : b * 2 ^ E = 2 ^ 88 := le_antisymm (le_trans hstar1 haub) h7
            have h9 : a * 2 ^ 64 = 2 ^ 88 := le_antisymm haub (le_trans h7 hstar1)
            have ha24 : a = 2 ^ 24 := by
              have h11 : a * 2 ^ 64 = 2 ^ 24 * 2 ^ 64 := by
                rw [h9]
                norm_num
              exact Nat.eq_of_mul_eq_mul_right (by positivity) h11
            have hbE : b * 2 ^ E = 2 ^ (88 - E) * 2 ^ E := by
              rw [h8, ← pow_add]
              congr 1
              omega
            have hb' : b = 2 ^ (88 - E) :=
              Nat.eq_of_mul_eq_mul_right (by positivity) hbE
            apply hdvd
            rw [ha24, hb', hP, ← pow_add]
            exact pow_dvd_pow 2 (by omega)
          have hu : 2 * b * m ≤ 2 * (a * P) + b := by
            rw [hm]
            exact rne_le (a * P) b hb0
          have hl : 2 * (a * P) ≤ 2 * b * m + b := by
            rw [hm]
            exact rne_ge (a * P) b hb0
          constructor
          · by_contra hcon
            push_neg at hcon
            have h5 : 2 * b * (K * P + 1) ≤ 2 * b * m :=
              Nat.mul_le_mul_left (2 * b) (Nat.succ_le_of_lt hcon)
            have h6 : a * P + P ≤ b * K * P := by
              calc a * P + P = (a + 1) * P := by ring
                _ ≤ b * K * P := Nat.mul_le_mul_right P (Nat.succ_le_of_lt hlt_bK)
            nlinarith [h5, h6, hu, hblt, hPpos]
          · by_contra hcon
            push_neg at hcon
            have h5 : 2 * b * (m + P) ≤ 2 * b * (K * P) :=
              Nat.mul_le_mul_left (2 * b) hcon
            have h6 : (b * K + 1) * (2 * P) ≤ (a + b) * (2 * P) :=
              Nat.mul_le_mul_right (2 * P) (Nat.succ_le_of_lt hK2)
            nlinarith [h5, h6, hl, hblt, hPpos]
      obtain ⟨hUp, hLo⟩ := hbounds
      have hdiv : (m + P - 1) / P = K := by
        have hlo' : K * P ≤ m + P - 1 := Nat.le_pred_of_lt hLo
        have hhi' : m + P - 1 < (K + 1) * P := by
          have h2 : m + P - 1 ≤ K * P + P - 1 :=
            Nat.sub_le_sub_right (Nat.add_le_add_right hUp P) 1
          have h3 : K * P + P - 1 < K * P + P :=
            Nat.sub_lt (lt_of_lt_of_le hPpos (Nat.le_add_left P (K * P))) one_pos
          calc m + P - 1 ≤ K * P + P - 1 := h2
            _ < K * P + P := h3
            _ = (K + 1) * P := by ring
        exact Nat.div_eq_of_lt_le hlo' hhi'
      rw [hdiv]
      have hKa : K ≤ a := by
        have h1 : a ≤ a * b := Nat.le_mul_of_pos_right a hb0
        have h2 : b * K < b * (a + 1) := by
          calc b * K < a + b := hK2
            _ ≤ a * b + b := Nat.add_le_add_right h1 b
            _ = b * (a + 1) := by ring
        have h3 : K < a + 1 := Nat.lt_of_mul_lt_mul_left h2
        omega
      have hKle : K ≤ USIZE_MAX :=
        le_trans hKa (le_trans ha (by norm_num [USIZE_MAX]))
      exact Nat.min_eq_left hKle

/-- C7 counterexample: with one subscription at a 1 ms publish interval and a
measured message roundtrip of 16777217 ms (2^24 + 1 ms, not representable in
`f32`), the code computes `max_publish_requests = 33554432`, while the spec's
formula `⌈roundtrip_ms / interval_ms⌉ · min_publish_requests` demands
`16777217 · 2 = 33554434`: the `f32` division rounds the quotient down to
`16777216`. -/
theorem c7_publish_limits_counterexample :
    c7CexState.message_roundtrip = 16777217000000 ∧
    c7CexState.publish_interval = 1000000 ∧
    c7CexState.min_publish_requests = 2 * 1 ∧
    c7CexState.max_publish_requests ≠
      ceilNat (c7CexState.message_roundtrip / 1000000)
        (c7CexState.publish_interval / 1000000) *
        c7CexState.min_publish_requests := by
  decide

/-- C7 (amended): `update_message_roundtrip d` clamps `message_roundtrip` to
`max d 10ms` unconditionally, and — provided the millisecond roundtrip stays
at or below 2^24 ms (≈ 4.66 hours), the millisecond publish interval lies in
`[1 ms, 2^24 ms]`, and the products do not overflow `usize` — both
`update_message_roundtrip` and `update_subscriptions` set
`min_publish_requests = 2 · subscriptions` and `max_publish_requests =
⌈roundtrip_ms / interval_ms⌉ · min_publish_requests`. Outside that range the
`f32` rounding in the code can diverge from the exact ceiling formula (see the
counterexample). -/
theorem c7_publish_limits (s : PublishLimits) (d n interval : Nat)
    (hsub : s.subscriptions * 2 < 2 ^ 64)
    (hn : n * 2 < 2 ^ 64)
    (hrt1 : max d MIN_MESSAGE_ROUNDTRIP / 1000000 ≤ 2 ^ 24)
    (hint1 : 1 ≤ s.publish_interval / 1000000)
    (hint2 : s.publish_interval / 1000000 ≤ 2 ^ 24)
    (hrt2 : s.message_roundtrip / 1000000 ≤ 2 ^ 24)
    (hint3 : 1 ≤ interval / 1000000)
    (hint4 : interval / 1000000 ≤ 2 ^ 24)
    (hprod1 : ceilNat (max d MIN_MESSAGE_ROUNDTRIP / 1000000)
      (s.publish_interval / 1000000) * (s.subscriptions * 2) < 2 ^ 64)
    (hprod2 : ceilNat (s.message_roundtrip / 1000000) (interval / 1000000) *
      (n * 2) < 2 ^ 64) :
    (update_message_roundtrip s d).message_roundtrip =
      max d MIN_MESSAGE_ROUNDTRIP ∧
    (update_message_roundtrip s d).min_publish_requests =
      2 * s.subscriptions ∧
    (update_message_roundtrip s d).max_publish_requests =
      ceilNat (max d MIN_MESSAGE_ROUNDTRIP / 1000000)
        (s.publish_interval / 1000000) * (2 * s.subscriptions) ∧
    (update_subscriptions s n interval).min_publish_requests = 2 * n ∧
    (update_subscriptions s n interval).max_publish_requests =
      ceilNat (s.message_roundtrip / 1000000) (interval / 1000000) * (2 * n) := by
  have hmin1 : s.subscriptions * REQUESTS_PER_SUBSCRIPTION % 2 ^ 64 =
      s.subscriptions * 2 := Nat.mod_eq_of_lt hsub
  have hmin2 : n * REQUESTS_PER_SUBSCRIPTION % 2 ^ 64 = n * 2 :=
    Nat.mod_eq_of_lt hn
  unfold update_message_roundtrip update_subscriptions calculate_publish_limits
  dsimp only
  rw [hmin1, hmin2]
  rw [ceilF32Div_exact _ _ hrt1 hint1 hint2]
  rw [ceilF32Div_exact _ _ hrt2 hint3 hint4]
  rw [Nat.mod_eq_of_lt hprod1, Nat.mod_eq_of_lt hprod2]
  refine ⟨rfl, by ring, by ring, by ring, by ring⟩

/-- Witness for C7: a concrete state with a 25 ms roundtrip, a 2 ms interval
and one subscription, updated with a 30 ms roundtrip measurement and with 3
subscriptions at a 5 ms interval; every hypothesis holds and both update
functions match the exact formula. -/
theorem c7_publish_limits_witness :
    (update_message_roundtrip
      { message_roundtrip := 25000000, publish_interval := 2000000,
        subscriptions := 1, min_publish_requests := 0,
        max_publish_requests := 0 } 30000000).max_publish_requests =
      ceilNat 30 2 * (2 * 1) ∧
    (update_subscriptions
      { message_roundtrip := 25000000, publish_interval := 2000000,
        subscriptions := 1, min_publish_requests := 0,
        max_publish_requests := 0 } 3 5000000).max_publish_requests =
      ceilNat 25 5 * (2 * 3) :=
  ⟨(c7_publish_limits
      { message_roundtrip := 25000000, publish_interval := 2000000,
        subscriptions := 1, min_publish_requests := 0,
        max_publish_requests := 0 } 30000000 3 5000000
      (by decide) (by decide) (by decide) (by decide) (by decide) (by decide)
      (by decide) (by decide) (by decide) (by decide)).2.2.1,
   (c7_publish_limits
      { message_roundtrip := 25000000, publish_interval := 2000000,
        subscriptions := 1, min_publish_requests := 0,
        max_publish_requests := 0 } 30000000 3 5000000
      (by decide) (by decide) (by decide) (by decide) (by decide) (by decide)
      (by decide) (by decide) (by decide) (by decide)).2.2.2.2⟩

end OpcUa
